import Mathlib

/-!
# Kaztext: glyph cache, texture sizing and text layout

A shallow embedding of `src/kaztext.cpp`.

Conventions of the embedding.

* `uint32_t` / `KTuint` values are natural numbers; every arithmetic step that
  the C++ performs in 32 bits is followed by an explicit `% U32`.
* `float` values are exact rationals (`ℚ`).  A `float` holds every integer of
  magnitude at most `2^24`, every power of two in range, and the quotient of
  such an integer by such a power of two, exactly; on these the rationals are
  the values of the code.  Beyond them the code rounds, and the rationals are
  an idealisation of its values.
* `std::map<K, V>` is a function `Nat → Option V` (`none`: key absent).
  `operator[]` inserts a value-initialised entry when the key is absent.
* FreeType and OpenGL are external.  Their answers are oracles (`FT_Face`,
  `Env.FT_New_Face`, `Env.names`), their invocations are appended to `Env.log`.
* A result of `none` stands for "no defined result": undefined behaviour
  (null or never initialised pointer, out-of-bounds access) or a loop that
  never terminates.
-/

namespace Kaztext

/-- Number of values of a `uint32_t`. -/
def U32 : Nat := 4294967296

/-! ## `pow2` (kaztext.cpp, lines 86-93) -/

/-- The loop `for(result = 1; result < i; result <<= 1);` started at `result`.
The shift is a 32-bit shift.  `fuel` bounds the number of iterations. -/
def pow2_loop : Nat → Nat → Nat → Option Nat
  | 0, _, _ => none
  | fuel + 1, result, i =>
    if result < i then pow2_loop fuel ((result <<< 1) % U32) i else some result

/-- The function `static uint32_t pow2(uint32_t i)`.  After 32 shifts `result` is `0` and
stays `0`, so 64 iterations decide whether the loop terminates. -/
def pow2 (i : Nat) : Option Nat :=
  if i = 1 then some 2 else pow2_loop 64 1 i

/-- The number `p` is the smallest power of two that is at least `n`. -/
def IsSmallestPow2Ge (p n : Nat) : Prop :=
  (∃ k, p = 2 ^ k) ∧ n ≤ p ∧ ∀ q, (∃ k, q = 2 ^ k) → n ≤ q → p ≤ q

/-! ## Containers -/

/-- The access `std::map<K, V>::operator[]`: the value stored under `k` and the map after
the access; an absent key is inserted with the value-initialised `dflt`. -/
def map_index {V : Type} (dflt : V) (m : Nat → Option V) (k : Nat) : V × (Nat → Option V) :=
  match m k with
  | some v => (v, m)
  | none => (dflt, fun k' => if k' = k then some dflt else m k')

/-- Assignment through `operator[]`: `m[k] = v`. -/
def map_assign {V : Type} (m : Nat → Option V) (k : Nat) (v : V) : Nat → Option V :=
  fun k' => if k' = k then some v else m k'

/-- Conversion of a `uint32_t` value to `int`. -/
def toInt32 (n : Nat) : Int :=
  if n < 2147483648 then (n : Int) else (n : Int) - 4294967296

/-- The shift `x << k` on a 32-bit `int`: the low 32 bits of `x * 2^k`, read
in two's complement. -/
def shl_int32 (x : Int) (k : Nat) : Int :=
  toInt32 ((x * 2 ^ k) % 4294967296).toNat

/-- Store `data[idx] = v` into a `std::vector<GLubyte>` with an `int` index.
An index outside the vector has no defined behaviour. -/
def vector_set (data : List Nat) (idx : Int) (v : Nat) : Option (List Nat) :=
  if 0 ≤ idx ∧ idx.toNat < data.length then some (data.set idx.toNat v) else none

/-! ## FreeType and OpenGL (external) -/

/-- The fields of `FT_Bitmap` the code reads.  `width` and `rows` are 32-bit
fields; `buffer` is the pixel buffer, one byte per pixel. -/
structure FT_Bitmap where
  width : Nat
  rows : Nat
  buffer : List Nat

/-- The fields of `face_->glyph` the code reads after `FT_Load_Glyph`
(26.6 fixed point). -/
structure FT_GlyphSlot where
  advance_x : Int
  horiBearingY : Int
  height : Int

/-- The fields of `FT_BitmapGlyph` the code reads. -/
structure FT_BitmapGlyph where
  left : Int
  top : Int
  bitmap : FT_Bitmap

/-- An opened and sized `FT_Face`, as an oracle.  `FT_Load_Glyph ch` is the
glyph slot after `FT_Load_Glyph(face_, FT_Get_Char_Index(face_, ch), ...)`,
`none` when the call reports an error.  `FT_Get_Glyph ch` is the bitmap glyph
that `FT_Get_Glyph` followed by `FT_Glyph_To_Bitmap` yields for the slot
loaded for `ch`, `none` when `FT_Get_Glyph` reports an error. -/
structure FT_Face where
  FT_Load_Glyph : Nat → Option FT_GlyphSlot
  FT_Get_Glyph : Nat → Option FT_BitmapGlyph

/-- The OpenGL constants the code passes. -/
inductive GLenum where
  | GL_ENABLE_BIT | GL_TEXTURE_2D | GL_BLEND | GL_SRC_ALPHA | GL_ONE_MINUS_SRC_ALPHA
  | GL_TEXTURE_MAG_FILTER | GL_TEXTURE_MIN_FILTER | GL_TEXTURE_WRAP_S | GL_TEXTURE_WRAP_T
  | GL_LINEAR | GL_CLAMP | GL_QUADS | GL_ALPHA16 | GL_LUMINANCE_ALPHA | GL_UNSIGNED_BYTE
  deriving DecidableEq

/-- One observable step: a call into FreeType or OpenGL, or the entry into
`Font::generate_glyph_texture`. -/
inductive Event where
  | generate_glyph_texture (ch : Nat)
  | FT_New_Face (ttf : String)
  | FT_Set_Char_Size (char_width char_height : Int) (horz vert : Nat)
  | FT_Load_Glyph (ch : Nat)
  | FT_Get_Glyph (ch : Nat)
  | FT_Glyph_To_Bitmap (ch : Nat)
  | glGenTextures (name : Nat)
  | glBindTexture (target : GLenum) (name : Nat)
  | glTexParameteri (target pname param : GLenum)
  | glTexImage2D (internal : GLenum) (w h : Nat) (format type : GLenum) (data : List Nat)
  | glPushAttrib (mask : GLenum)
  | glPopAttrib
  | glEnable (cap : GLenum)
  | glBlendFunc (sfactor dfactor : GLenum)
  | glPushMatrix
  | glPopMatrix
  | glScalef (x y z : ℚ)
  | glTranslatef (x y z : ℚ)
  | glBegin (mode : GLenum)
  | glEnd
  | glTexCoord2f (s t : ℚ)
  | glVertex2f (x y : ℚ)
  deriving DecidableEq

/-- The world outside the program.  `FT_New_Face ttf` is the face FreeType
opens for a path (`none`: the call reports an error), `FT_Set_Char_Size` the
face after sizing, `names k` the texture name the `k`-th `glGenTextures` call
writes, `allocated` the number of `glGenTextures` calls made so far, `log`
the steps made so far, oldest first. -/
structure Env where
  FT_New_Face : String → Option FT_Face
  FT_Set_Char_Size : FT_Face → Int → Int → FT_Face
  names : Nat → Nat
  allocated : Nat
  log : List Event

/-- Record one step. -/
def Env.emit (env : Env) (e : Event) : Env :=
  { env with log := env.log ++ [e] }

/-- The call `glGenTextures(1, &name)`: the name written, and the world after. -/
def Env.glGenTextures (env : Env) : Nat × Env :=
  (env.names env.allocated,
   { env with allocated := env.allocated + 1,
              log := env.log ++ [Event.glGenTextures (env.names env.allocated)] })

/-! ## `Font` (kaztext.cpp, lines 20-60) -/

/-- The record `Font::Char`. -/
structure Font.Char where
  width : Nat
  height : Nat
  texture_width : Nat
  texture_height : Nat
  advance_x : ℚ
  advance_y : ℚ
  tex_coord_x : ℚ
  tex_coord_y : ℚ
  left : ℚ
  top : ℚ
  deriving DecidableEq

/-- A value-initialised `Font::Char`: every field is zero. -/
def Font.Char.zero : Font.Char :=
  { width := 0, height := 0, texture_width := 0, texture_height := 0,
    advance_x := 0, advance_y := 0, tex_coord_x := 0, tex_coord_y := 0,
    left := 0, top := 0 }

/-- The class `Font`.  `face_` is `none` until `FT_New_Face` has succeeded
(the constructor leaves the member uninitialised). -/
structure Font where
  ttf_ : String
  font_size_ : Int
  face_ : Option FT_Face
  textures_ : Nat → Option Nat
  char_properties_ : Nat → Option Font.Char

/-- The constructor `Font::Font(ttf, font_size)`. -/
def Font.new (ttf : String) (font_size : Int) : Font :=
  { ttf_ := ttf, font_size_ := font_size, face_ := none,
    textures_ := fun _ => none, char_properties_ := fun _ => none }

/-- The access `char_properties_[ch]` of the getters. -/
def Font.props (self : Font) (ch : Nat) : Font.Char × Font :=
  ((map_index Font.Char.zero self.char_properties_ ch).1,
   { self with char_properties_ := (map_index Font.Char.zero self.char_properties_ ch).2 })

/-- The getter `Font::get_char_advance_x`. -/
def Font.get_char_advance_x (self : Font) (ch : Nat) : ℚ × Font :=
  ((self.props ch).1.advance_x, (self.props ch).2)

/-- The getter `Font::get_char_advance_y`. -/
def Font.get_char_advance_y (self : Font) (ch : Nat) : ℚ × Font :=
  ((self.props ch).1.advance_y, (self.props ch).2)

/-- The getter `Font::get_char_left`. -/
def Font.get_char_left (self : Font) (ch : Nat) : ℚ × Font :=
  ((self.props ch).1.left, (self.props ch).2)

/-- The getter `Font::get_char_top`. -/
def Font.get_char_top (self : Font) (ch : Nat) : ℚ × Font :=
  ((self.props ch).1.top, (self.props ch).2)

/-- The getter `Font::get_char_texture`. -/
def Font.get_char_texture (self : Font) (ch : Nat) : Nat × Font :=
  ((map_index 0 self.textures_ ch).1,
   { self with textures_ := (map_index 0 self.textures_ ch).2 })

/-- The getter `Font::get_char_width`. -/
def Font.get_char_width (self : Font) (ch : Nat) : Nat × Font :=
  ((self.props ch).1.width, (self.props ch).2)

/-- The getter `Font::get_char_height`. -/
def Font.get_char_height (self : Font) (ch : Nat) : Nat × Font :=
  ((self.props ch).1.height, (self.props ch).2)

/-- The getter `Font::get_char_tex_coord_x`. -/
def Font.get_char_tex_coord_x (self : Font) (ch : Nat) : ℚ × Font :=
  ((self.props ch).1.tex_coord_x, (self.props ch).2)

/-- The getter `Font::get_char_tex_coord_y`. -/
def Font.get_char_tex_coord_y (self : Font) (ch : Nat) : ℚ × Font :=
  ((self.props ch).1.tex_coord_y, (self.props ch).2)

/-! ## `Font::generate_glyph_texture` (kaztext.cpp, lines 95-143) -/

/-- Body of the inner loop of lines 122-127 for the pixel `(i, j)`: the two
stores `data[idx] = data[idx+1] = ...`.  The index arithmetic is unsigned
32-bit; `idx` is an `int`.  A read outside `bitmap.buffer` or a store outside
`data` has no defined behaviour. -/
def glyph_data_pixel (bitmap : FT_Bitmap) (tex_w j i : Nat) (data : List Nat) :
    Option (List Nat) :=
  (if i ≥ bitmap.width ∨ j ≥ bitmap.rows then some 0
   else bitmap.buffer[(i + (bitmap.width * j) % U32) % U32]?).bind fun v =>
  (vector_set data (toInt32 ((2 * ((i + (j * tex_w) % U32) % U32)) % U32) + 1) v).bind fun data =>
  vector_set data (toInt32 ((2 * ((i + (j * tex_w) % U32) % U32)) % U32)) v

/-- Lines 121-127: the vector `data(tex_w * tex_h * 2)`, zero-initialised, and
the two nested loops over `j < tex_h` and `i < tex_w`. -/
def glyph_data (bitmap : FT_Bitmap) (tex_w tex_h : Nat) : Option (List Nat) :=
  (List.range tex_h).foldlM
    (fun data j =>
      (List.range tex_w).foldlM (fun data i => glyph_data_pixel bitmap tex_w j i data) data)
    (List.replicate (((tex_w * tex_h) % U32 * 2) % U32) 0)

/-- Lines 129-135: creation and upload of the texture for `data`; the name
`glGenTextures` wrote and the world after. -/
def upload_texture (env : Env) (tex_w tex_h : Nat) (data : List Nat) : Nat × Env :=
  (env.glGenTextures.1,
   ((((((env.glGenTextures.2.emit
      (Event.glBindTexture GLenum.GL_TEXTURE_2D env.glGenTextures.1)).emit
      (Event.glTexParameteri GLenum.GL_TEXTURE_2D GLenum.GL_TEXTURE_MAG_FILTER
        GLenum.GL_LINEAR)).emit
      (Event.glTexParameteri GLenum.GL_TEXTURE_2D GLenum.GL_TEXTURE_MIN_FILTER
        GLenum.GL_LINEAR)).emit
      (Event.glTexParameteri GLenum.GL_TEXTURE_2D GLenum.GL_TEXTURE_WRAP_S GLenum.GL_CLAMP)).emit
      (Event.glTexParameteri GLenum.GL_TEXTURE_2D GLenum.GL_TEXTURE_WRAP_T GLenum.GL_CLAMP)).emit
      (Event.glTexImage2D GLenum.GL_ALPHA16 tex_w tex_h GLenum.GL_LUMINANCE_ALPHA
        GLenum.GL_UNSIGNED_BYTE data)))

/-- The record `char_properties_[ch]` after lines 111-116 and 137-140, written
over the record `c` that was there.  The `float` fields are exact rationals:
they are the values of the code when the integers converted (`bitmap.width`,
`bitmap.rows`, the bearings and the shifted advances) have magnitude at most
`2^24`. -/
def glyph_record (c : Font.Char) (slot : FT_GlyphSlot) (bitmap_glyph : FT_BitmapGlyph)
    (tex_w tex_h : Nat) : Font.Char :=
  { c with
    width := bitmap_glyph.bitmap.width
    height := bitmap_glyph.bitmap.rows
    texture_width := tex_w
    texture_height := tex_h
    left := (bitmap_glyph.left : ℚ)
    top := (bitmap_glyph.top : ℚ)
    advance_x := ((slot.advance_x >>> 6 : Int) : ℚ)
    advance_y := (((slot.horiBearingY - slot.height) >>> 6 : Int) : ℚ)
    tex_coord_x := (bitmap_glyph.bitmap.width : ℚ) / (tex_w : ℚ)
    tex_coord_y := (bitmap_glyph.bitmap.rows : ℚ) / (tex_h : ℚ) }

/-- The part of `Font::generate_glyph_texture` after the two FreeType calls
have succeeded (lines 107-142), for a font whose `textures_` already holds the
key `ch`. -/
def generate_glyph_texture_miss (self : Font) (env : Env) (ch : Nat)
    (slot : FT_GlyphSlot) (bitmap_glyph : FT_BitmapGlyph) : Option (Bool × Font × Env) :=
  match pow2 bitmap_glyph.bitmap.width, pow2 bitmap_glyph.bitmap.rows with
  | some tex_w, some tex_h =>
    match glyph_data bitmap_glyph.bitmap tex_w tex_h with
    | none => none
    | some data =>
      some (true,
        { self with
          textures_ := map_assign self.textures_ ch (upload_texture env tex_w tex_h data).1
          char_properties_ := map_assign self.char_properties_ ch
            (glyph_record (map_index Font.Char.zero self.char_properties_ ch).1
              slot bitmap_glyph tex_w tex_h) },
        (upload_texture env tex_w tex_h data).2)
  | _, _ => none

/-- The function `bool Font::generate_glyph_texture(wchar_t ch)`. -/
def Font.generate_glyph_texture (self : Font) (env : Env) (ch : Nat) :
    Option (Bool × Font × Env) :=
  if (map_index 0 self.textures_ ch).1 > 0 then
    some (true, { self with textures_ := (map_index 0 self.textures_ ch).2 },
      env.emit (Event.generate_glyph_texture ch))
  else
    match self.face_ with
    | none => none
    | some face =>
      match face.FT_Load_Glyph ch with
      | none =>
        some (false, { self with textures_ := (map_index 0 self.textures_ ch).2 },
          (env.emit (Event.generate_glyph_texture ch)).emit (Event.FT_Load_Glyph ch))
      | some slot =>
        match face.FT_Get_Glyph ch with
        | none =>
          some (false, { self with textures_ := (map_index 0 self.textures_ ch).2 },
            ((env.emit (Event.generate_glyph_texture ch)).emit (Event.FT_Load_Glyph ch)).emit
              (Event.FT_Get_Glyph ch))
        | some bitmap_glyph =>
          generate_glyph_texture_miss
            { self with textures_ := (map_index 0 self.textures_ ch).2 }
            ((((env.emit (Event.generate_glyph_texture ch)).emit (Event.FT_Load_Glyph ch)).emit
              (Event.FT_Get_Glyph ch)).emit (Event.FT_Glyph_To_Bitmap ch))
            ch slot bitmap_glyph

/-! ## `Font::load` (kaztext.cpp, lines 145-162) -/

/-- The loop `for(wchar_t i = 32; i <= 127; ++i) generate_glyph_texture(i);`
started at `i`; the result of each call is dropped.  `fuel` bounds the number
of iterations. -/
def Font.load_loop : Nat → Nat → Font → Env → Option (Font × Env)
  | 0, _, _, _ => none
  | fuel + 1, i, self, env =>
    if i ≤ 127 then
      match self.generate_glyph_texture env i with
      | none => none
      | some r => Font.load_loop fuel (i + 1) r.2.1 r.2.2
    else some (self, env)

/-- The function `bool Font::load()`.  The shift `font_size_ << 6` is a shift
of a 32-bit `int`; the result of `FT_Set_Char_Size` is dropped. -/
def Font.load (self : Font) (env : Env) : Option (Bool × Font × Env) :=
  match env.FT_New_Face self.ttf_ with
  | none => some (false, self, env.emit (Event.FT_New_Face self.ttf_))
  | some face =>
    match Font.load_loop 128 32
        { self with
          face_ := some (env.FT_Set_Char_Size face (shl_int32 self.font_size_ 6)
            (shl_int32 self.font_size_ 6)) }
        ((env.emit (Event.FT_New_Face self.ttf_)).emit
          (Event.FT_Set_Char_Size (shl_int32 self.font_size_ 6) (shl_int32 self.font_size_ 6)
            96 96)) with
    | none => none
    | some r => some (true, r.1, r.2)

/-! ## The registry and the public functions (kaztext.cpp, lines 14-18, 62-63, 164-246) -/

/-- The statics `next_font_id`, `fonts_` and `current_font_`.  In `fonts_`,
`some none` is a key that holds a null `Font::ptr`. -/
structure State where
  next_font_id : Nat
  fonts_ : Nat → Option (Option Font)
  current_font_ : Nat

/-- The statics at program start. -/
def State.init : State :=
  { next_font_id := 0, fonts_ := fun _ => none, current_font_ := 0 }

/-- The function `KTuint get_next_font_id()`. -/
def get_next_font_id (s : State) : Nat × State :=
  ((s.next_font_id + 1) % U32, { s with next_font_id := (s.next_font_id + 1) % U32 })

/-- The function `void ktGenFonts(uint32_t n, uint32_t* fonts)`; the first
component is the content written to `fonts[0..n)`. -/
def ktGenFonts (s : State) (n : Nat) : List Nat × State :=
  (List.range n).foldl
    (fun acc _ =>
      (acc.1 ++ [(get_next_font_id acc.2).1],
       { (get_next_font_id acc.2).2 with
         fonts_ := map_assign (get_next_font_id acc.2).2.fonts_ (get_next_font_id acc.2).1 none }))
    ([], s)

/-- The function `void ktBindFont(KTuint n)`; a failed `assert` gives no result. -/
def ktBindFont (s : State) (n : Nat) : Option (Unit × State) :=
  match s.fonts_ n with
  | none => none
  | some _ => some ((), { s with current_font_ := n })

/-- The function `void ktLoadFont(const char* name, KTsizei size)`. -/
def ktLoadFont (s : State) (env : Env) (name : String) (size : Nat) :
    Option (Unit × State × Env) :=
  match (Font.new name (toInt32 size)).load env with
  | none => none
  | some r =>
    some ((), { s with fonts_ := map_assign s.fonts_ s.current_font_ (some r.2.1) }, r.2.2)

/-- Body of the loop of `ktDrawText` (lines 197-215) for one character.  The
getters are threaded in the order of the text; each of them only repeats the
access `char_properties_[ch]` (or `textures_[ch]`), so the order in which the
arguments of one call are evaluated makes no difference. -/
def ktDrawText_glyph (font : Font) (env : Env) (ch : Nat) : Option (Font × Env) :=
  match font.generate_glyph_texture env ch with
  | none => none
  | some r =>
    let l := r.2.1.get_char_left ch
    let t := l.2.get_char_top ch
    let h1 := t.2.get_char_height ch
    let tex := h1.2.get_char_texture ch
    let h2 := tex.2.get_char_height ch
    let ty1 := h2.2.get_char_tex_coord_y ch
    let tx1 := ty1.2.get_char_tex_coord_x ch
    let ty2 := tx1.2.get_char_tex_coord_y ch
    let w1 := ty2.2.get_char_width ch
    let tx2 := w1.2.get_char_tex_coord_x ch
    let w2 := tx2.2.get_char_width ch
    let h3 := w2.2.get_char_height ch
    let a := h3.2.get_char_advance_x ch
    some (a.2,
      ((((((((((((((r.2.2.emit
        Event.glPushMatrix).emit
        (Event.glTranslatef l.1 (t.1 - (h1.1 : ℚ)) 0)).emit
        (Event.glBindTexture GLenum.GL_TEXTURE_2D tex.1)).emit
        (Event.glBegin GLenum.GL_QUADS)).emit
        (Event.glTexCoord2f 0 0)).emit
        (Event.glVertex2f 0 (h2.1 : ℚ))).emit
        (Event.glTexCoord2f 0 ty1.1)).emit
        (Event.glVertex2f 0 0)).emit
        (Event.glTexCoord2f tx1.1 ty2.1)).emit
        (Event.glVertex2f (w1.1 : ℚ) 0)).emit
        (Event.glTexCoord2f tx2.1 0)).emit
        (Event.glVertex2f (w2.1 : ℚ) (h3.1 : ℚ))).emit
        Event.glEnd).emit
        Event.glPopMatrix).emit
        (Event.glTranslatef a.1 0 0))

/-- The loop of `ktDrawText` over the characters of the text (line 196). -/
def ktDrawText_loop : List Nat → Font → Env → Option (Font × Env)
  | [], font, env => some (font, env)
  | ch :: rest, font, env =>
    match ktDrawText_glyph font env ch with
    | none => none
    | some r => ktDrawText_loop rest r.1 r.2

/-- Lines 183-194 of `ktDrawText`: the calls made before the loop. -/
def ktDrawText_begin (env : Env) (x y : ℚ) : Env :=
  ((((((env.emit
    (Event.glPushAttrib GLenum.GL_ENABLE_BIT)).emit
    (Event.glEnable GLenum.GL_TEXTURE_2D)).emit
    (Event.glEnable GLenum.GL_BLEND)).emit
    (Event.glBlendFunc GLenum.GL_SRC_ALPHA GLenum.GL_ONE_MINUS_SRC_ALPHA)).emit
    Event.glPushMatrix).emit
    (Event.glScalef 1 (-1) 1)).emit
    (Event.glTranslatef x (-y) 0)

/-- The function `void ktDrawText(float x, float y, const KTwchar* text_in)`.
The pointer `font` is only dereferenced inside the loop. -/
def ktDrawText (s : State) (env : Env) (x y : ℚ) (text : List Nat) :
    Option (Unit × State × Env) :=
  match text with
  | [] =>
    some ((), { s with fonts_ := (map_index none s.fonts_ s.current_font_).2 },
      ((ktDrawText_begin env x y).emit Event.glPopMatrix).emit Event.glPopAttrib)
  | _ :: _ =>
    match (map_index none s.fonts_ s.current_font_).1 with
    | none => none
    | some font =>
      match ktDrawText_loop text font (ktDrawText_begin env x y) with
      | none => none
      | some r =>
        some ((), { s with fonts_ := map_assign s.fonts_ s.current_font_ (some r.1) },
          (r.2.emit Event.glPopMatrix).emit Event.glPopAttrib)

/-- The loop of `ktCacheString` (lines 225-227) over the indices in `is`: the
argument of `generate_glyph_texture` is the index `i`. -/
def ktCacheString_loop : List Nat → Font → Env → Option (Font × Env)
  | [], font, env => some (font, env)
  | i :: rest, font, env =>
    match font.generate_glyph_texture env i with
    | none => none
    | some r => ktCacheString_loop rest r.2.1 r.2.2

/-- The function `void ktCacheString(const KTwchar* s)`. -/
def ktCacheString (s : State) (env : Env) (text : List Nat) : Option (Unit × State × Env) :=
  match text with
  | [] => some ((), s, env)
  | _ :: _ =>
    match (map_index none s.fonts_ s.current_font_).1 with
    | none => none
    | some font =>
      match ktCacheString_loop (List.range text.length) font env with
      | none => none
      | some r =>
        some ((), { s with fonts_ := map_assign s.fonts_ s.current_font_ (some r.1) }, r.2)

/-- The loop of `ktGetStringWidth` (lines 234-236): `len` accumulates
`get_char_advance_x(text[i])`.  The sum is an exact rational: it is the value
of the code as long as the partial sums have magnitude at most `2^24`. -/
def ktGetStringWidth_loop : List Nat → ℚ → Font → ℚ × Font
  | [], len, font => (len, font)
  | ch :: rest, len, font =>
    ktGetStringWidth_loop rest (len + (font.get_char_advance_x ch).1)
      (font.get_char_advance_x ch).2

/-- The function `KTfloat ktGetStringWidth(const KTwchar* text_in)`. -/
def ktGetStringWidth (s : State) (env : Env) (text : List Nat) : Option (ℚ × State × Env) :=
  match text with
  | [] => some (0, s, env)
  | _ :: _ =>
    match (map_index none s.fonts_ s.current_font_).1 with
    | none => none
    | some font =>
      some ((ktGetStringWidth_loop text 0 font).1,
        { s with
          fonts_ := (map_assign s.fonts_ s.current_font_
            (some (ktGetStringWidth_loop text 0 font).2)) },
        env)

/-- The function `void ktDrawTextCentred(float x, float y, const KTwchar* text)`. -/
def ktDrawTextCentred (s : State) (env : Env) (x y : ℚ) (text : List Nat) :
    Option (Unit × State × Env) :=
  match ktGetStringWidth s env text with
  | none => none
  | some r =>
    match ktDrawText r.2.1
        ((r.2.2.emit Event.glPushMatrix).emit (Event.glTranslatef (-r.1 / 2) 0 0)) x y text with
    | none => none
    | some r2 => some ((), r2.2.1, r2.2.2.emit Event.glPopMatrix)

/-! ## Definitions used to state the properties -/

/-- The byte the padded buffer is to hold in both channels of the pixel
`(i, j)`: the bitmap's byte inside the bitmap, `0` in the padding. -/
def glyph_pixel (bitmap : FT_Bitmap) (i j : Nat) : Nat :=
  if i < bitmap.width ∧ j < bitmap.rows then
    (bitmap.buffer[i + bitmap.width * j]?).getD 0
  else 0

/-- The bitmap is consistent (`buffer` holds `width * rows` bytes) and its
padded size stays within the 32-bit arithmetic of `generate_glyph_texture`. -/
def FT_Bitmap.Fits (b : FT_Bitmap) : Prop :=
  b.buffer.length = b.width * b.rows ∧
  ∃ tw th, pow2 b.width = some tw ∧ pow2 b.rows = some th ∧ 2 * tw * th ≤ 2 ^ 31

/-- Every bitmap the face renders fits. -/
def FT_Face.Fits (face : FT_Face) : Prop :=
  ∀ ch g, face.FT_Get_Glyph ch = some g → g.bitmap.Fits

/-- The rasterizer succeeds for `ch`: neither `FT_Load_Glyph` nor
`FT_Get_Glyph` reports an error. -/
def FT_Face.Rasterizes (face : FT_Face) (ch : Nat) : Prop :=
  (face.FT_Load_Glyph ch).isSome = true ∧ (face.FT_Get_Glyph ch).isSome = true

/-- The code points for which `generate_glyph_texture` was entered, in order. -/
def calls (log : List Event) : List Nat :=
  log.filterMap fun e =>
    match e with
    | Event.generate_glyph_texture ch => some ch
    | _ => none

/-- The texture names `glGenTextures` wrote, in order. -/
def allocations (log : List Event) : List Nat :=
  log.filterMap fun e =>
    match e with
    | Event.glGenTextures name => some name
    | _ => none

/-- The step is a call into OpenGL. -/
def Event.is_gpu_call : Event → Bool
  | Event.glGenTextures _ => true
  | Event.glBindTexture _ _ => true
  | Event.glTexParameteri _ _ _ => true
  | Event.glTexImage2D _ _ _ _ _ _ => true
  | Event.glPushAttrib _ => true
  | Event.glPopAttrib => true
  | Event.glEnable _ => true
  | Event.glBlendFunc _ _ => true
  | Event.glPushMatrix => true
  | Event.glPopMatrix => true
  | Event.glScalef _ _ _ => true
  | Event.glTranslatef _ _ _ => true
  | Event.glBegin _ => true
  | Event.glEnd => true
  | Event.glTexCoord2f _ _ => true
  | Event.glVertex2f _ _ => true
  | _ => false

/-- The calls into OpenGL among the steps, in order. -/
def gpu_calls (log : List Event) : List Event :=
  log.filter Event.is_gpu_call

/-- The code points for which the rasterizer (`FT_Load_Glyph`) was invoked. -/
def rasterizations (log : List Event) : List Nat :=
  log.filterMap fun e =>
    match e with
    | Event.FT_Load_Glyph ch => some ch
    | _ => none

/-- The events of a successful miss after the entry. -/
def miss_events (ch tex_w tex_h name : Nat) (data : List Nat) : List Event :=
  [Event.FT_Load_Glyph ch, Event.FT_Get_Glyph ch, Event.FT_Glyph_To_Bitmap ch,
   Event.glGenTextures name,
   Event.glBindTexture GLenum.GL_TEXTURE_2D name,
   Event.glTexParameteri GLenum.GL_TEXTURE_2D GLenum.GL_TEXTURE_MAG_FILTER GLenum.GL_LINEAR,
   Event.glTexParameteri GLenum.GL_TEXTURE_2D GLenum.GL_TEXTURE_MIN_FILTER GLenum.GL_LINEAR,
   Event.glTexParameteri GLenum.GL_TEXTURE_2D GLenum.GL_TEXTURE_WRAP_S GLenum.GL_CLAMP,
   Event.glTexParameteri GLenum.GL_TEXTURE_2D GLenum.GL_TEXTURE_WRAP_T GLenum.GL_CLAMP,
   Event.glTexImage2D GLenum.GL_ALPHA16 tex_w tex_h GLenum.GL_LUMINANCE_ALPHA
     GLenum.GL_UNSIGNED_BYTE data]

/-- A bitmap of 65536 x 65536 pixels, all zero. -/
def bitmap_65536 : FT_Bitmap :=
  { width := 65536, rows := 65536, buffer := List.replicate (65536 * 65536) 0 }

/-- The font after the accesses `textures_[ch]` and `char_properties_[ch]`. -/
def Font.touch (self : Font) (ch : Nat) : Font :=
  { self with
    textures_ := (map_index 0 self.textures_ ch).2
    char_properties_ := (map_index Font.Char.zero self.char_properties_ ch).2 }

/-- The record `char_properties_[ch]` reads. -/
def Font.record (self : Font) (ch : Nat) : Font.Char :=
  (self.char_properties_ ch).getD Font.Char.zero

/-- The handle `textures_[ch]` reads. -/
def Font.texture (self : Font) (ch : Nat) : Nat :=
  (self.textures_ ch).getD 0

/-- The OpenGL calls of lines 201-215 for a glyph with record `r` and
texture handle `texture`. -/
def quad_events (r : Font.Char) (texture : Nat) : List Event :=
  [Event.glPushMatrix,
   Event.glTranslatef r.left (r.top - (r.height : ℚ)) 0,
   Event.glBindTexture GLenum.GL_TEXTURE_2D texture,
   Event.glBegin GLenum.GL_QUADS,
   Event.glTexCoord2f 0 0,
   Event.glVertex2f 0 (r.height : ℚ),
   Event.glTexCoord2f 0 r.tex_coord_y,
   Event.glVertex2f 0 0,
   Event.glTexCoord2f r.tex_coord_x r.tex_coord_y,
   Event.glVertex2f (r.width : ℚ) 0,
   Event.glTexCoord2f r.tex_coord_x 0,
   Event.glVertex2f (r.width : ℚ) (r.height : ℚ),
   Event.glEnd,
   Event.glPopMatrix,
   Event.glTranslatef r.advance_x 0 0]

/-- The steps `generate_glyph_texture` makes: its entry, FreeType calls, and
the creation and upload of a texture. -/
def Event.is_cache_event : Event → Bool
  | Event.generate_glyph_texture _ => true
  | Event.FT_Load_Glyph _ => true
  | Event.FT_Get_Glyph _ => true
  | Event.FT_Glyph_To_Bitmap _ => true
  | Event.glGenTextures _ => true
  | Event.glBindTexture _ _ => true
  | Event.glTexParameteri _ _ _ => true
  | Event.glTexImage2D _ _ _ _ _ _ => true
  | _ => false

/-! ### A reading of the OpenGL calls

The modelview matrices the program builds are compositions of scalings and
translations in the plane; `Mat` is the map
`(px, py) ↦ (sx * px + tx, sy * py + ty)`. -/

/-- A modelview matrix built from `glScalef` and `glTranslatef`. -/
structure Mat where
  sx : ℚ
  sy : ℚ
  tx : ℚ
  ty : ℚ
  deriving DecidableEq

/-- The matrix after `glScalef(x, y, 1)`. -/
def Mat.scale (m : Mat) (x y : ℚ) : Mat :=
  { m with sx := m.sx * x, sy := m.sy * y }

/-- The matrix after `glTranslatef(x, y, 0)`. -/
def Mat.translate (m : Mat) (x y : ℚ) : Mat :=
  { m with tx := m.tx + m.sx * x, ty := m.ty + m.sy * y }

/-- A vertex of a primitive: texture coordinate `(s, t)` and position
`(x, y)` in object coordinates. -/
structure Vertex where
  s : ℚ
  t : ℚ
  x : ℚ
  y : ℚ
  deriving DecidableEq

/-- A primitive drawn between `glBegin` and `glEnd`: the texture bound, the
modelview matrix in effect, and the vertices in order. -/
structure Quad where
  texture : Nat
  matrix : Mat
  vertices : List Vertex
  deriving DecidableEq

/-- The part of the OpenGL state the calls of the program act on. -/
structure GLState where
  matrix : Mat
  matrix_stack : List Mat
  enabled : List GLenum
  attrib_stack : List (List GLenum)
  texture : Nat
  texcoord : ℚ × ℚ
  vertices : List Vertex
  quads : List Quad

/-- The effect of one step on the OpenGL state. -/
def GLState.step (g : GLState) : Event → GLState
  | Event.glPushAttrib _ => { g with attrib_stack := g.enabled :: g.attrib_stack }
  | Event.glPopAttrib =>
    match g.attrib_stack with
    | [] => g
    | e :: rest => { g with enabled := e, attrib_stack := rest }
  | Event.glEnable cap => { g with enabled := cap :: g.enabled }
  | Event.glPushMatrix => { g with matrix_stack := g.matrix :: g.matrix_stack }
  | Event.glPopMatrix =>
    match g.matrix_stack with
    | [] => g
    | m :: rest => { g with matrix := m, matrix_stack := rest }
  | Event.glScalef x y _ => { g with matrix := g.matrix.scale x y }
  | Event.glTranslatef x y _ => { g with matrix := g.matrix.translate x y }
  | Event.glBindTexture _ name => { g with texture := name }
  | Event.glBegin _ => { g with vertices := [] }
  | Event.glTexCoord2f s t => { g with texcoord := (s, t) }
  | Event.glVertex2f x y =>
    { g with vertices := g.vertices ++ [{ s := g.texcoord.1, t := g.texcoord.2, x := x, y := y }] }
  | Event.glEnd =>
    { g with
      quads := g.quads ++ [{ texture := g.texture, matrix := g.matrix, vertices := g.vertices }]
      vertices := [] }
  | _ => g

/-- The OpenGL state after the steps `evs`. -/
def GLState.run (g : GLState) (evs : List Event) : GLState :=
  evs.foldl GLState.step g

/-- The quad the text layout prescribes for the code point `ch` at pen offset
`pen`, in a text frame `frame`: positioned at the pen offset plus the origin
`(left, top - height)`, with box `(width, height)`, the glyph's texture, and
the texture rectangle `(0,0)-(tex_coord_x, tex_coord_y)` on the box. -/
def layout_quad (font : Font) (frame : Mat) (pen : ℚ) (ch : Nat) : Quad :=
  { texture := font.texture ch
    matrix := frame.translate (pen + (font.record ch).left)
      ((font.record ch).top - ((font.record ch).height : ℚ))
    vertices :=
      [{ s := 0, t := 0, x := 0, y := ((font.record ch).height : ℚ) },
       { s := 0, t := (font.record ch).tex_coord_y, x := 0, y := 0 },
       { s := (font.record ch).tex_coord_x, t := (font.record ch).tex_coord_y,
         x := ((font.record ch).width : ℚ), y := 0 },
       { s := (font.record ch).tex_coord_x, t := 0,
         x := ((font.record ch).width : ℚ), y := ((font.record ch).height : ℚ) }] }

/-- The sum of `advance_x` over the code points of `text`, in string order. -/
def advance_sum (font : Font) (text : List Nat) : ℚ :=
  (text.map fun ch => (font.record ch).advance_x).sum

/-- The quads the text layout prescribes for `text`, the pen starting at
offset `pen`: one per code point, the pen advanced by `advance_x` after each. -/
def layout_quads (font : Font) (frame : Mat) : ℚ → List Nat → List Quad
  | _, [] => []
  | pen, ch :: rest =>
    layout_quad font frame pen ch ::
      layout_quads font frame (pen + (font.record ch).advance_x) rest

/-- The entries of `c` are final: `char_properties_` has a record for `c`,
and either `c` has a non-zero texture handle, or it has the handle `0` and
the rasterizer fails for it. -/
def Font.Settled (self : Font) (face : FT_Face) (c : Nat) : Prop :=
  (self.char_properties_ c).isSome = true ∧
  ((∃ t, self.textures_ c = some t ∧ 0 < t) ∨
   (self.textures_ c = some 0 ∧ ¬ face.Rasterizes c))

/-- The record of `c` is the one `generate_glyph_texture` builds from what the
rasterizer yields for `c`. -/
def Font.RecordFrom (self : Font) (face : FT_Face) (c : Nat) : Prop :=
  ∃ slot g tw th, face.FT_Load_Glyph c = some slot ∧ face.FT_Get_Glyph c = some g ∧
    pow2 g.bitmap.width = some tw ∧ pow2 g.bitmap.rows = some th ∧
    self.char_properties_ c = some (glyph_record Font.Char.zero slot g tw th)

/-- A face for the examples.  The rasterizer fails for the code points 7
(`FT_Load_Glyph`) and 8 (`FT_Get_Glyph`); the space has an empty bitmap, the
full stop a bitmap of one pixel, every other glyph a bitmap of 2 x 1 pixels;
every advance is 10 pixels. -/
def sample_face : FT_Face :=
  { FT_Load_Glyph := fun ch =>
      if ch = 7 then none
      else some { advance_x := 640, horiBearingY := 128, height := 192 }
    FT_Get_Glyph := fun ch =>
      if ch = 8 then none
      else if ch = 32 then
        some { left := 0, top := 0, bitmap := { width := 0, rows := 0, buffer := [] } }
      else if ch = 46 then
        some { left := 1, top := 1, bitmap := { width := 1, rows := 1, buffer := [255] } }
      else
        some { left := 1, top := 2, bitmap := { width := 2, rows := 1, buffer := [7, 9] } } }

/-- The path of a font file that exists. -/
def sample_ttf : String := "sample.ttf"

/-- The path of a font file that does not exist. -/
def missing_ttf : String := "missing.ttf"

/-- A world for the examples: only the path `sample.ttf` can be opened, and
the `k`-th texture name is `k + 1`. -/
def sample_env : Env :=
  { FT_New_Face := fun ttf => if ttf = sample_ttf then some sample_face else none
    FT_Set_Char_Size := fun face _ _ => face
    names := fun k => k + 1
    allocated := 0
    log := [] }

/-- The font of `sample.ttf` as `Font::load` finds it before the warm-up loop:
the face is open, the cache is empty. -/
def sample_font : Font :=
  { ttf_ := sample_ttf, font_size_ := 24, face_ := some sample_face,
    textures_ := fun _ => none, char_properties_ := fun _ => none }

/-- The registry after `ktGenFonts(1, &id)` and `ktBindFont(id)` at program
start: the handle 1 is bound and holds a null pointer. -/
def sample_state : State :=
  match ktBindFont (ktGenFonts State.init 1).2 1 with
  | some r => r.2
  | none => State.init

/-- The result of `ktLoadFont("sample.ttf", 24)` on the bound handle of
`sample_state` in the sample world. -/
def loaded_result : Option (Unit × State × Env) :=
  ktLoadFont sample_state sample_env sample_ttf 24

/-- The registry after `ktLoadFont("sample.ttf", 24)`. -/
def loaded_state : State :=
  match loaded_result with
  | some r => r.2.1
  | none => sample_state

/-- The world after `ktLoadFont("sample.ttf", 24)`. -/
def loaded_env : Env :=
  match loaded_result with
  | some r => r.2.2
  | none => sample_env

/-- The font in the bound slot after `ktLoadFont("sample.ttf", 24)`. -/
def loaded_font : Font :=
  match loaded_state.fonts_ loaded_state.current_font_ with
  | some (some font) => font
  | _ => sample_font

/-! # Theorems -/

/-! ## `pow2` -/

theorem pow2_loop_pow (fuel : Nat) :
    ∀ j i, j ≤ 31 → i ≤ 2 ^ 31 → (j = 0 ∨ 2 ^ (j - 1) < i) → 33 ≤ fuel + j →
      ∃ k, j ≤ k ∧ k ≤ 31 ∧ pow2_loop fuel (2 ^ j) i = some (2 ^ k) ∧ i ≤ 2 ^ k ∧
        (k = 0 ∨ 2 ^ (k - 1) < i) := by
  induction fuel with
  | zero => intro j i hj _ _ hf; omega
  | succ fuel ih =>
    intro j i hj hi hlow hf
    by_cases hlt : 2 ^ j < i
    · have hj30 : j < 31 := by
        by_contra hcon
        have : j = 31 := by omega
        subst this
        omega
      have hstep : (2 ^ j <<< 1) % U32 = 2 ^ (j + 1) := by
        have h1 : 2 ^ (j + 1) ≤ 2 ^ 31 := Nat.pow_le_pow_right (by norm_num) (by omega)
        rw [Nat.shiftLeft_eq, ← Nat.pow_succ]
        apply Nat.mod_eq_of_lt
        have : (2 : Nat) ^ 31 < U32 := by norm_num [U32]
        omega
      obtain ⟨k, hjk, hk, hres, hge, hmin⟩ :=
        ih (j + 1) i (by omega) hi (Or.inr (by simpa using hlt)) (by omega)
      refine ⟨k, by omega, hk, ?_, hge, hmin⟩
      simp only [pow2_loop, hlt, if_true, hstep]
      exact hres
    · refine ⟨j, le_refl j, hj, ?_, by omega, hlow⟩
      simp only [pow2_loop, hlt, if_false]

theorem pow2_some (n : Nat) (hn : n ≤ 2 ^ 31) :
    ∃ r, pow2 n = some r ∧ 1 ≤ r ∧ r ≤ 2 ^ 31 ∧ (∃ k, r = 2 ^ k) ∧ n ≤ r ∧
      (n = 1 → r = 2) ∧ (n ≠ 1 → r / 2 < n ∨ r = 1) := by
  by_cases h1 : n = 1
  · subst h1
    exact ⟨2, by simp [pow2], by norm_num, by norm_num, ⟨1, by norm_num⟩, by norm_num,
      fun _ => rfl, fun h => absurd rfl h⟩
  · obtain ⟨k, _, hk, hres, hge, hmin⟩ :=
      pow2_loop_pow 64 0 n (by norm_num) hn (Or.inl rfl) (by norm_num)
    refine ⟨2 ^ k, ?_, Nat.one_le_two_pow, Nat.pow_le_pow_right (by norm_num) hk, ⟨k, rfl⟩, hge,
      fun h => absurd h h1, fun _ => ?_⟩
    · simpa [pow2, h1] using hres
    · rcases hmin with h0 | hlt
      · right; simp [h0]
      · left
        have hk0 : k ≠ 0 := by
          intro h0
          subst h0
          simp at hlt hge
          omega
        obtain ⟨m, rfl⟩ := Nat.exists_eq_succ_of_ne_zero hk0
        simpa [Nat.pow_succ] using hlt

theorem isSmallestPow2Ge_of_half (r n : Nat) (hpow : ∃ k, r = 2 ^ k) (hge : n ≤ r)
    (hhalf : r / 2 < n ∨ r = 1) : IsSmallestPow2Ge r n := by
  refine ⟨hpow, hge, ?_⟩
  rintro q ⟨m, rfl⟩ hq
  rcases hhalf with hlt | h1
  · obtain ⟨k, rfl⟩ := hpow
    by_contra hcon
    have hmk : m < k := by
      by_contra h
      exact hcon (Nat.pow_le_pow_right (by norm_num) (by omega))
    obtain ⟨k', rfl⟩ : ∃ k', k = k' + 1 := ⟨k - 1, by omega⟩
    have h1 : 2 ^ m ≤ 2 ^ k' := Nat.pow_le_pow_right (by norm_num) (by omega)
    have h2 : 2 ^ (k' + 1) / 2 = 2 ^ k' := by
      rw [Nat.pow_succ]; simp
    omega
  · subst h1
    exact Nat.one_le_two_pow

/-- Claim C5. `pow2(1) = 2`, and for every `n` with `2 ≤ n ≤ 2^31` the call
`pow2(n)` returns the smallest power of two that is at least `n`: the result
is `2^k` for some `k`, is at least `n`, and its half is below `n`; the
examples `pow2(8) = 8`, `pow2(9) = 16`, `pow2(17) = 32` hold. -/
theorem pow2_smallest_power_of_two :
    pow2 1 = some 2 ∧ pow2 8 = some 8 ∧ pow2 9 = some 16 ∧ pow2 17 = some 32 ∧
    ∀ n, 2 ≤ n → n ≤ 2 ^ 31 →
      ∃ r, pow2 n = some r ∧ (∃ k, r = 2 ^ k) ∧ n ≤ r ∧ r / 2 < n ∧ IsSmallestPow2Ge r n := by
  refine ⟨by decide, by decide, by decide, by decide, ?_⟩
  intro n h2 hn
  obtain ⟨r, hr, _, _, ⟨k, hk⟩, hge, _, hhalf⟩ := pow2_some n hn
  have hlt : r / 2 < n := by
    rcases hhalf (by omega) with h | h
    · exact h
    · omega
  exact ⟨r, hr, ⟨k, hk⟩, hge, hlt, isSmallestPow2Ge_of_half r n ⟨k, hk⟩ hge (Or.inl hlt)⟩

/-- Instance of claim C5 at `n = 9`. -/
theorem pow2_smallest_power_of_two_witness :
    (2 ≤ 9 ∧ 9 ≤ 2 ^ 31) ∧
    ∃ r, pow2 9 = some r ∧ (∃ k, r = 2 ^ k) ∧ 9 ≤ r ∧ r / 2 < 9 ∧ IsSmallestPow2Ge r 9 :=
  ⟨by norm_num, pow2_smallest_power_of_two.2.2.2.2 9 (by norm_num) (by norm_num)⟩

/-- For `2^31 < i < 2^32` the loop of `pow2` never terminates: no amount of
fuel gives a result. -/
theorem pow2_loop_diverges (fuel : Nat) (i : Nat) (hi : 2 ^ 31 < i) (hi2 : i < U32) :
    ∀ j, j ≤ 32 → pow2_loop fuel ((2 ^ j) % U32) i = none := by
  induction fuel with
  | zero => intro j _; rfl
  | succ fuel ih =>
    intro j hj
    have hlt : (2 ^ j) % U32 < i := by
      by_cases h32 : j = 32
      · subst h32; simp [U32]; omega
      · have h1 : 2 ^ j ≤ 2 ^ 31 := Nat.pow_le_pow_right (by norm_num) (by omega)
        have : (2 : Nat) ^ j % U32 ≤ 2 ^ j := Nat.mod_le _ _
        omega
    simp only [pow2_loop, hlt, if_true]
    by_cases h32 : j = 32
    · subst h32
      have h0 : ((((2 : Nat) ^ 32) % U32) <<< 1) % U32 = 2 ^ 32 % U32 := by simp [U32]
      rw [h0]
      exact ih 32 (le_refl _)
    · have h0 : ((((2 : Nat) ^ j) % U32) <<< 1) % U32 = 2 ^ (j + 1) % U32 := by
        have h1 : 2 ^ j ≤ 2 ^ 31 := Nat.pow_le_pow_right (by norm_num) (by omega)
        have h2 : (2 : Nat) ^ j % U32 = 2 ^ j := by
          apply Nat.mod_eq_of_lt
          have : (2 : Nat) ^ 31 < U32 := by norm_num [U32]
          omega
        rw [h2, Nat.shiftLeft_eq, ← Nat.pow_succ]
      rw [h0]
      exact ih (j + 1) (by omega)

theorem pow2_loop_mono (fuel : Nat) :
    ∀ res i r, pow2_loop fuel res i = some r → pow2_loop (fuel + 1) res i = some r := by
  induction fuel with
  | zero => intro res i r h; simp [pow2_loop] at h
  | succ fuel ih =>
    intro res i r h
    by_cases hlt : res < i
    · simp only [pow2_loop, hlt, if_true] at h
      have := ih _ _ _ h
      rw [pow2_loop]
      simp only [hlt, if_true]
      exact this
    · simp only [pow2_loop, hlt, if_false] at h
      rw [pow2_loop]
      simp only [hlt, if_false]
      exact h

theorem pow2_loop_ge (fuel : Nat) :
    ∀ res i r, pow2_loop fuel res i = some r → i ≤ r ∧ (1 ≤ res → 1 ≤ r) := by
  induction fuel with
  | zero => intro res i r h; simp [pow2_loop] at h
  | succ fuel ih =>
    intro res i r h
    by_cases hlt : res < i
    · simp only [pow2_loop, hlt, if_true] at h
      have := (ih _ _ _ h).1
      exact ⟨this, fun _ => by omega⟩
    · simp only [pow2_loop, hlt, if_false, Option.some.injEq] at h
      subst h
      exact ⟨by omega, fun h => h⟩

theorem pow2_ge (n r : Nat) (h : pow2 n = some r) : n ≤ r ∧ 1 ≤ r := by
  unfold pow2 at h
  by_cases h1 : n = 1
  · simp [h1] at h
    omega
  · simp only [h1, if_false] at h
    have := pow2_loop_ge 64 1 n r h
    exact ⟨this.1, this.2 (le_refl 1)⟩

/-! ## The padded pixel buffer -/

theorem glyph_data_pixel_eq (bitmap : FT_Bitmap) (tw th i j : Nat) (data : List Nat)
    (hbuf : bitmap.buffer.length = bitmap.width * bitmap.rows)
    (hw : bitmap.width ≤ tw) (hh : bitmap.rows ≤ th)
    (hfit : 2 * tw * th ≤ 2 ^ 31) (hi : i < tw) (hj : j < th)
    (hlen : data.length = 2 * tw * th) :
    glyph_data_pixel bitmap tw j i data =
      some ((data.set (2 * (i + j * tw) + 1) (glyph_pixel bitmap i j)).set
        (2 * (i + j * tw)) (glyph_pixel bitmap i j)) := by
  have hp : i + j * tw < tw * th := by
    calc i + j * tw < tw + j * tw := by omega
      _ = (j + 1) * tw := by ring
      _ ≤ th * tw := Nat.mul_le_mul_right tw hj
      _ = tw * th := Nat.mul_comm _ _
  have hN : 2 * (tw * th) ≤ 2147483648 := by
    have := hfit
    rw [Nat.mul_assoc] at this
    norm_num at this
    exact this
  have hlen2 : data.length = 2 * (tw * th) := by rw [hlen, Nat.mul_assoc]
  have hjt : j * tw % U32 = j * tw := Nat.mod_eq_of_lt (by unfold U32; omega)
  have hij : (i + j * tw) % U32 = i + j * tw := Nat.mod_eq_of_lt (by unfold U32; omega)
  have h2 : (2 * (i + j * tw)) % U32 = 2 * (i + j * tw) :=
    Nat.mod_eq_of_lt (by unfold U32; omega)
  have hidx : toInt32 (2 * (i + j * tw)) = ((2 * (i + j * tw) : Nat) : Int) := by
    unfold toInt32
    rw [if_pos (by omega)]
  have hv : (if i ≥ bitmap.width ∨ j ≥ bitmap.rows then some 0
      else bitmap.buffer[(i + (bitmap.width * j) % U32) % U32]?) =
      some (glyph_pixel bitmap i j) := by
    unfold glyph_pixel
    by_cases hc : i ≥ bitmap.width ∨ j ≥ bitmap.rows
    · rw [if_pos hc, if_neg (by omega)]
    · have hc2 : i < bitmap.width ∧ j < bitmap.rows := by omega
      rw [if_neg hc, if_pos hc2]
      have hq : i + bitmap.width * j < bitmap.width * bitmap.rows := by
        calc i + bitmap.width * j < bitmap.width + bitmap.width * j := by omega
          _ = bitmap.width * (j + 1) := by ring
          _ ≤ bitmap.width * bitmap.rows := Nat.mul_le_mul_left _ hc2.2
      have hwh : bitmap.width * bitmap.rows ≤ tw * th := Nat.mul_le_mul hw hh
      have hwj : bitmap.width * j % U32 = bitmap.width * j :=
        Nat.mod_eq_of_lt (by unfold U32; omega)
      have hiwj : (i + bitmap.width * j) % U32 = i + bitmap.width * j :=
        Nat.mod_eq_of_lt (by unfold U32; omega)
      rw [hwj, hiwj]
      have hlt : i + bitmap.width * j < bitmap.buffer.length := by omega
      rw [List.getElem?_eq_getElem hlt]
      rfl
  unfold glyph_data_pixel
  rw [hv, hjt, hij, h2, hidx]
  have e1 : vector_set data (((2 * (i + j * tw) : Nat) : Int) + 1) (glyph_pixel bitmap i j) =
      some (data.set (2 * (i + j * tw) + 1) (glyph_pixel bitmap i j)) := by
    unfold vector_set
    have ht : (((2 * (i + j * tw) : Nat) : Int) + 1).toNat = 2 * (i + j * tw) + 1 := by omega
    rw [ht, if_pos ⟨by omega, by omega⟩]
  have e2 : vector_set (data.set (2 * (i + j * tw) + 1) (glyph_pixel bitmap i j))
      ((2 * (i + j * tw) : Nat) : Int) (glyph_pixel bitmap i j) =
      some ((data.set (2 * (i + j * tw) + 1) (glyph_pixel bitmap i j)).set
        (2 * (i + j * tw)) (glyph_pixel bitmap i j)) := by
    unfold vector_set
    rw [Int.toNat_ofNat, if_pos ⟨by omega, by rw [List.length_set]; omega⟩]
  simp only [Option.some_bind, e1, e2]

theorem glyph_data_row (bitmap : FT_Bitmap) (tw th j : Nat)
    (hbuf : bitmap.buffer.length = bitmap.width * bitmap.rows)
    (hw : bitmap.width ≤ tw) (hh : bitmap.rows ≤ th)
    (hfit : 2 * tw * th ≤ 2 ^ 31) (hj : j < th) :
    ∀ n, n ≤ tw → ∀ data : List Nat, data.length = 2 * tw * th →
      ∃ data', (List.range n).foldlM
          (fun data i => glyph_data_pixel bitmap tw j i data) data = some data' ∧
        data'.length = 2 * tw * th ∧
        ∀ idx, data'[idx]? =
          if j * tw ≤ idx / 2 ∧ idx / 2 < j * tw + n then
            some (glyph_pixel bitmap (idx / 2 - j * tw) j)
          else data[idx]? := by
  intro n
  induction n with
  | zero =>
    intro _ data hlen
    refine ⟨data, by simp, hlen, fun idx => ?_⟩
    rw [if_neg (by omega)]
  | succ n ih =>
    intro hn data hlen
    obtain ⟨d1, hd1, hlen1, hget1⟩ := ih (by omega) data hlen
    have hstep := glyph_data_pixel_eq bitmap tw th n j d1 hbuf hw hh hfit (by omega) hj hlen1
    refine ⟨(d1.set (2 * (n + j * tw) + 1) (glyph_pixel bitmap n j)).set
      (2 * (n + j * tw)) (glyph_pixel bitmap n j), ?_, ?_, ?_⟩
    · rw [List.range_succ, List.foldlM_append, hd1]
      simp only [List.foldlM_cons, List.foldlM_nil, Option.bind_eq_bind, Option.some_bind,
        hstep]
      rfl
    · simp only [List.length_set, hlen1]
    · intro idx
      have hp : n + j * tw < tw * th := by
        calc n + j * tw < tw + j * tw := by omega
          _ = (j + 1) * tw := by ring
          _ ≤ th * tw := Nat.mul_le_mul_right tw hj
          _ = tw * th := Nat.mul_comm _ _
      have hlen2 : d1.length = 2 * (tw * th) := by rw [hlen1, Nat.mul_assoc]
      rw [List.getElem?_set, List.getElem?_set, List.length_set, hget1 idx]
      by_cases h0 : 2 * (n + j * tw) = idx
      · have hq : idx / 2 = n + j * tw := by omega
        rw [if_pos h0, if_pos (by omega), if_pos ⟨by omega, by omega⟩]
        congr 2
        omega
      · rw [if_neg h0]
        by_cases h1 : 2 * (n + j * tw) + 1 = idx
        · have hq : idx / 2 = n + j * tw := by omega
          rw [if_pos h1, if_pos (by omega), if_pos ⟨by omega, by omega⟩]
          congr 2
          omega
        · rw [if_neg h1]
          have hq : idx / 2 ≠ n + j * tw := by omega
          by_cases hc : j * tw ≤ idx / 2 ∧ idx / 2 < j * tw + n
          · rw [if_pos hc, if_pos ⟨hc.1, by omega⟩]
          · rw [if_neg hc, if_neg (by omega)]

theorem glyph_data_rows (bitmap : FT_Bitmap) (tw th : Nat)
    (hbuf : bitmap.buffer.length = bitmap.width * bitmap.rows)
    (hw : bitmap.width ≤ tw) (hh : bitmap.rows ≤ th) (htw : 1 ≤ tw)
    (hfit : 2 * tw * th ≤ 2 ^ 31) (data0 : List Nat) (hlen0 : data0.length = 2 * tw * th) :
    ∀ m, m ≤ th →
      ∃ data', (List.range m).foldlM
          (fun data j =>
            (List.range tw).foldlM (fun data i => glyph_data_pixel bitmap tw j i data) data)
          data0 = some data' ∧
        data'.length = 2 * tw * th ∧
        ∀ idx, data'[idx]? =
          if idx / 2 < m * tw then
            some (glyph_pixel bitmap ((idx / 2) % tw) ((idx / 2) / tw))
          else data0[idx]? := by
  intro m
  induction m with
  | zero =>
    intro _
    refine ⟨data0, by simp, hlen0, fun idx => ?_⟩
    rw [if_neg (by omega)]
  | succ m ih =>
    intro hm
    obtain ⟨d1, hd1, hlen1, hget1⟩ := ih (by omega)
    obtain ⟨d2, hd2, hlen2, hget2⟩ :=
      glyph_data_row bitmap tw th m hbuf hw hh hfit (by omega) tw (le_refl _) d1 hlen1
    refine ⟨d2, ?_, hlen2, ?_⟩
    · rw [List.range_succ, List.foldlM_append, hd1]
      simp only [List.foldlM_cons, List.foldlM_nil, Option.bind_eq_bind, Option.some_bind, hd2]
      rfl
    · intro idx
      rw [hget2 idx, hget1 idx]
      have hsucc : (m + 1) * tw = m * tw + tw := by ring
      by_cases hc : m * tw ≤ idx / 2 ∧ idx / 2 < m * tw + tw
      · rw [if_pos hc, if_pos (by omega)]
        obtain ⟨r, hr⟩ : ∃ r, idx / 2 = r + m * tw := ⟨idx / 2 - m * tw, by omega⟩
        have hrlt : r < tw := by omega
        have hmod : (idx / 2) % tw = r := by
          rw [hr, Nat.add_mul_mod_self_right, Nat.mod_eq_of_lt hrlt]
        have hdiv : (idx / 2) / tw = m := by
          rw [hr, Nat.add_mul_div_right _ _ (by omega), Nat.div_eq_of_lt hrlt, Nat.zero_add]
        rw [hmod, hdiv]
        congr 2
        omega
      · rw [if_neg hc]
        by_cases hc2 : idx / 2 < m * tw
        · rw [if_pos hc2, if_pos (by omega)]
        · rw [if_neg hc2, if_neg (by omega)]

/-- The buffer of `generate_glyph_texture` for a bitmap whose padded size
`2 * tex_w * tex_h` stays within `2^31`. -/
theorem glyph_data_spec (bitmap : FT_Bitmap) (tw th : Nat)
    (hbuf : bitmap.buffer.length = bitmap.width * bitmap.rows)
    (htw : pow2 bitmap.width = some tw) (hth : pow2 bitmap.rows = some th)
    (hfit : 2 * tw * th ≤ 2 ^ 31) :
    ∃ data, glyph_data bitmap tw th = some data ∧ data.length = 2 * tw * th ∧
      ∀ i j, i < tw → j < th →
        data[2 * (i + j * tw)]? = some (glyph_pixel bitmap i j) ∧
        data[2 * (i + j * tw) + 1]? = some (glyph_pixel bitmap i j) := by
  obtain ⟨hw, htw1⟩ := pow2_ge _ _ htw
  obtain ⟨hh, _⟩ := pow2_ge _ _ hth
  have hsize : ((tw * th) % U32 * 2) % U32 = 2 * tw * th := by
    have hN : 2 * (tw * th) ≤ 2147483648 := by
      have := hfit
      rw [Nat.mul_assoc] at this
      norm_num at this
      exact this
    have h1 : (tw * th) % U32 = tw * th := Nat.mod_eq_of_lt (by unfold U32; omega)
    have h2 : (tw * th * 2) % U32 = tw * th * 2 := Nat.mod_eq_of_lt (by unfold U32; omega)
    rw [h1, h2]
    ring
  obtain ⟨data, hd, hlen, hget⟩ :=
    glyph_data_rows bitmap tw th hbuf hw hh htw1 hfit
      (List.replicate (((tw * th) % U32 * 2) % U32) 0)
      (by rw [List.length_replicate, hsize]) th (le_refl _)
  refine ⟨data, hd, hlen, fun i j hi hj => ?_⟩
  have hp : i + j * tw < th * tw := by
    calc i + j * tw < tw + j * tw := by omega
      _ = (j + 1) * tw := by ring
      _ ≤ th * tw := Nat.mul_le_mul_right tw hj
  have hmod : (i + j * tw) % tw = i := by
    rw [Nat.add_mul_mod_self_right, Nat.mod_eq_of_lt hi]
  have hdiv : (i + j * tw) / tw = j := by
    rw [Nat.add_mul_div_right _ _ (by omega), Nat.div_eq_of_lt hi, Nat.zero_add]
  constructor
  · rw [hget, if_pos (by omega)]
    have : 2 * (i + j * tw) / 2 = i + j * tw := by omega
    rw [this, hmod, hdiv]
  · rw [hget, if_pos (by omega)]
    have : (2 * (i + j * tw) + 1) / 2 = i + j * tw := by omega
    rw [this, hmod, hdiv]

theorem glyph_data_pixel_nil (bitmap : FT_Bitmap) (tw j i : Nat) :
    glyph_data_pixel bitmap tw j i [] = none := by
  unfold glyph_data_pixel vector_set
  cases (if i ≥ bitmap.width ∨ j ≥ bitmap.rows then some 0
      else bitmap.buffer[(i + (bitmap.width * j) % U32) % U32]?) <;> simp

/-- Claim C10 (amended). For every bitmap of width `w` and rows `h` with a
buffer of `w*h` bytes, `tw = pow2(w)`, `th = pow2(h)` and `2*tw*th ≤ 2^31`,
the buffer built by `generate_glyph_texture` is defined (every read and every
store is in bounds), has exactly `2*tw*th` bytes, and for `i < tw`, `j < th`
the two bytes at `2*(i + j*tw)` and `2*(i + j*tw) + 1` are equal, are the
bitmap's byte `i + w*j` when `i < w` and `j < h`, and are `0` otherwise. -/
theorem generate_glyph_texture_padded_buffer (bitmap : FT_Bitmap) (tw th : Nat)
    (hbuf : bitmap.buffer.length = bitmap.width * bitmap.rows)
    (htw : pow2 bitmap.width = some tw) (hth : pow2 bitmap.rows = some th)
    (hfit : 2 * tw * th ≤ 2 ^ 31) :
    ∃ data, glyph_data bitmap tw th = some data ∧ data.length = 2 * tw * th ∧
      ∀ i j, i < tw → j < th →
        data[2 * (i + j * tw)]? = data[2 * (i + j * tw) + 1]? ∧
        (i < bitmap.width ∧ j < bitmap.rows →
          i + bitmap.width * j < bitmap.buffer.length ∧
          data[2 * (i + j * tw)]? = bitmap.buffer[i + bitmap.width * j]?) ∧
        (¬ (i < bitmap.width ∧ j < bitmap.rows) → data[2 * (i + j * tw)]? = some 0) := by
  obtain ⟨data, hd, hlen, hget⟩ := glyph_data_spec bitmap tw th hbuf htw hth hfit
  refine ⟨data, hd, hlen, fun i j hi hj => ?_⟩
  obtain ⟨h0, h1⟩ := hget i j hi hj
  refine ⟨by rw [h0, h1], fun hin => ?_, fun hout => ?_⟩
  · have hq : i + bitmap.width * j < bitmap.width * bitmap.rows := by
      calc i + bitmap.width * j < bitmap.width + bitmap.width * j := by omega
        _ = bitmap.width * (j + 1) := by ring
        _ ≤ bitmap.width * bitmap.rows := Nat.mul_le_mul_left _ hin.2
    have hlt : i + bitmap.width * j < bitmap.buffer.length := by omega
    refine ⟨hlt, ?_⟩
    rw [h0, glyph_pixel, if_pos hin, List.getElem?_eq_getElem hlt]
    rfl
  · rw [h0, glyph_pixel, if_neg hout]

/-- Instance of claim C10 (amended) at a 2 x 1 bitmap with bytes 7, 9. -/
theorem generate_glyph_texture_padded_buffer_witness :
    ∃ data, glyph_data { width := 2, rows := 1, buffer := [7, 9] } 2 2 = some data ∧
      data.length = 2 * 2 * 2 ∧
      ∀ i j, i < 2 → j < 2 →
        data[2 * (i + j * 2)]? = data[2 * (i + j * 2) + 1]? ∧
        (i < 2 ∧ j < 1 → i + 2 * j < 2 ∧ data[2 * (i + j * 2)]? = [7, 9][i + 2 * j]?) ∧
        (¬ (i < 2 ∧ j < 1) → data[2 * (i + j * 2)]? = some 0) :=
  generate_glyph_texture_padded_buffer { width := 2, rows := 1, buffer := [7, 9] } 2 2
    (by decide) (by decide) (by decide) (by norm_num)

/-- Claim C10 as stated fails: for the 65536 x 65536 bitmap, whose buffer has
`w*h` bytes and for which `pow2` gives `tw = th = 65536`, the size
`tex_w * tex_h * 2` wraps to `0` in 32 bits, the first store is out of bounds,
and no buffer of `2*tw*th` bytes is built. -/
theorem generate_glyph_texture_padded_buffer_counterexample :
    bitmap_65536.buffer.length = bitmap_65536.width * bitmap_65536.rows ∧
    pow2 bitmap_65536.width = some 65536 ∧ pow2 bitmap_65536.rows = some 65536 ∧
    ((65536 * 65536) % U32 * 2) % U32 = 0 ∧
    glyph_data bitmap_65536 65536 65536 = none ∧
    ¬ ∃ data, glyph_data bitmap_65536 65536 65536 = some data ∧
      data.length = 2 * 65536 * 65536 := by
  have hnone : glyph_data bitmap_65536 65536 65536 = none := by
    unfold glyph_data
    have hsize : ((65536 * 65536) % U32 * 2) % U32 = 0 := by norm_num [U32]
    rw [hsize]
    have hr : List.range 65536 = 0 :: (List.range 65535).map Nat.succ :=
      List.range_succ_eq_map 65535
    rw [hr]
    simp only [List.foldlM_cons, List.replicate_zero, glyph_data_pixel_nil,
      Option.bind_eq_bind, Option.none_bind]
  refine ⟨?_, by decide, by decide, by norm_num [U32], hnone, ?_⟩
  · exact List.length_replicate _ _
  · rintro ⟨data, hd, _⟩
    rw [hnone] at hd
    exact Option.noConfusion hd

/-! ## `Font::generate_glyph_texture` -/

theorem map_index_snd_self {V : Type} (dflt : V) (m : Nat → Option V) (k : Nat) :
    (map_index dflt m k).2 k = some (map_index dflt m k).1 := by
  unfold map_index
  cases h : m k <;> simp [h]

theorem map_index_snd_ne {V : Type} (dflt : V) (m : Nat → Option V) (k k' : Nat)
    (h : k' ≠ k) : (map_index dflt m k).2 k' = m k' := by
  unfold map_index
  cases h2 : m k <;> simp [h]

theorem map_index_of_some {V : Type} (dflt : V) (m : Nat → Option V) (k : Nat) (v : V)
    (h : m k = some v) : map_index dflt m k = (v, m) := by
  unfold map_index
  rw [h]

theorem map_index_fst {V : Type} (dflt : V) (m : Nat → Option V) (k : Nat) :
    (map_index dflt m k).1 = (m k).getD dflt := by
  unfold map_index
  cases h : m k <;> simp

theorem map_index_idem {V : Type} (dflt : V) (m : Nat → Option V) (k : Nat) :
    map_index dflt (map_index dflt m k).2 k = ((map_index dflt m k).1, (map_index dflt m k).2) := by
  exact map_index_of_some _ _ _ _ (map_index_snd_self dflt m k)

/-- Cache hit: the call returns `true`, enters no FreeType or OpenGL call and
leaves the font as it is. -/
theorem generate_glyph_texture_hit (self : Font) (env : Env) (ch t : Nat)
    (ht : self.textures_ ch = some t) (hpos : 0 < t) :
    self.generate_glyph_texture env ch =
      some (true, self, env.emit (Event.generate_glyph_texture ch)) := by
  unfold Font.generate_glyph_texture
  rw [map_index_of_some 0 _ _ _ ht]
  simp only [gt_iff_lt, hpos, if_true]

/-- Rasterizer failure on a miss: the call returns `false`; the only change
to the font is the access `textures_[ch]`. -/
theorem generate_glyph_texture_fail (self : Font) (env : Env) (ch : Nat) (face : FT_Face)
    (hface : self.face_ = some face) (hmiss : (map_index 0 self.textures_ ch).1 = 0)
    (hfail : face.FT_Load_Glyph ch = none ∨ face.FT_Get_Glyph ch = none) :
    ∃ env', self.generate_glyph_texture env ch =
        some (false, { self with textures_ := (map_index 0 self.textures_ ch).2 }, env') ∧
      env'.names = env.names ∧ env'.allocated = env.allocated ∧
      env'.FT_New_Face = env.FT_New_Face ∧ env'.FT_Set_Char_Size = env.FT_Set_Char_Size ∧
      ∃ evs, env'.log = env.log ++ Event.generate_glyph_texture ch :: Event.FT_Load_Glyph ch :: evs ∧
        (evs = [] ∨ evs = [Event.FT_Get_Glyph ch]) := by
  unfold Font.generate_glyph_texture
  rw [hmiss, hface]
  simp only [gt_iff_lt, lt_irrefl, if_false]
  cases hl : face.FT_Load_Glyph ch with
  | none =>
    exact ⟨_, rfl, rfl, rfl, rfl, rfl, [], by simp [Env.emit], Or.inl rfl⟩
  | some slot =>
    have hg : face.FT_Get_Glyph ch = none := by
      rcases hfail with h | h
      · rw [hl] at h; exact Option.noConfusion h
      · exact h
    simp only [hg]
    exact ⟨_, rfl, rfl, rfl, rfl, rfl, [Event.FT_Get_Glyph ch], by simp [Env.emit], Or.inr rfl⟩

/-- Successful miss: the call returns `true`, allocates one texture and
stores the record built from the rasterized glyph. -/
theorem generate_glyph_texture_miss_ok (self : Font) (env : Env) (ch : Nat) (face : FT_Face)
    (slot : FT_GlyphSlot) (g : FT_BitmapGlyph)
    (hface : self.face_ = some face) (hmiss : (map_index 0 self.textures_ ch).1 = 0)
    (hload : face.FT_Load_Glyph ch = some slot) (hget : face.FT_Get_Glyph ch = some g)
    (hfits : g.bitmap.Fits) :
    ∃ tw th data env',
      pow2 g.bitmap.width = some tw ∧ pow2 g.bitmap.rows = some th ∧
      glyph_data g.bitmap tw th = some data ∧
      self.generate_glyph_texture env ch =
        some (true,
          { self with
            textures_ := map_assign (map_index 0 self.textures_ ch).2 ch
              (env.names env.allocated)
            char_properties_ := map_assign self.char_properties_ ch
              (glyph_record (map_index Font.Char.zero self.char_properties_ ch).1 slot g tw th) },
          env') ∧
      env'.names = env.names ∧ env'.allocated = env.allocated + 1 ∧
      env'.FT_New_Face = env.FT_New_Face ∧ env'.FT_Set_Char_Size = env.FT_Set_Char_Size ∧
      env'.log = env.log ++ Event.generate_glyph_texture ch ::
        miss_events ch tw th (env.names env.allocated) data := by
  obtain ⟨hbuf, tw, th, htw, hth, hfit⟩ := hfits
  obtain ⟨data, hdata, _, _⟩ := glyph_data_spec g.bitmap tw th hbuf htw hth hfit
  have hup : ∀ e : Env, (upload_texture e tw th data).1 = e.names e.allocated ∧
      (upload_texture e tw th data).2.names = e.names ∧
      (upload_texture e tw th data).2.allocated = e.allocated + 1 ∧
      (upload_texture e tw th data).2.FT_New_Face = e.FT_New_Face ∧
      (upload_texture e tw th data).2.FT_Set_Char_Size = e.FT_Set_Char_Size ∧
      (upload_texture e tw th data).2.log = e.log ++
        (miss_events ch tw th (e.names e.allocated) data).drop 3 := by
    intro e
    refine ⟨rfl, rfl, rfl, rfl, rfl, ?_⟩
    simp only [upload_texture, Env.emit, Env.glGenTextures, miss_events, List.drop_succ_cons,
      List.drop_zero, List.append_assoc, List.cons_append, List.nil_append]
  obtain ⟨h1, h2, h3, h4, h5, h6⟩ :=
    hup ((((env.emit (Event.generate_glyph_texture ch)).emit
      (Event.FT_Load_Glyph ch)).emit (Event.FT_Get_Glyph ch)).emit
      (Event.FT_Glyph_To_Bitmap ch))
  refine ⟨tw, th, data,
    (upload_texture ((((env.emit (Event.generate_glyph_texture ch)).emit
      (Event.FT_Load_Glyph ch)).emit (Event.FT_Get_Glyph ch)).emit
      (Event.FT_Glyph_To_Bitmap ch)) tw th data).2, htw, hth, hdata, ?_, ?_⟩
  · unfold Font.generate_glyph_texture
    rw [hmiss]
    simp only [gt_iff_lt, lt_irrefl, if_false]
    rw [hface]
    simp only [hload, hget]
    unfold generate_glyph_texture_miss
    simp only [htw, hth, hdata]
    rw [h1]
    rfl
  · refine ⟨h2, h3, h4, h5, ?_⟩
    rw [h6]
    simp only [Env.emit, miss_events, List.drop_succ_cons, List.drop_zero, List.append_assoc,
      List.cons_append, List.nil_append]

theorem pow2_loop_le (fuel : Nat) :
    ∀ res i r, (res = 0 ∨ ∃ j, j ≤ 31 ∧ res = 2 ^ j) → pow2_loop fuel res i = some r →
      r ≤ 2 ^ 31 := by
  induction fuel with
  | zero => intro res i r _ h; simp [pow2_loop] at h
  | succ fuel ih =>
    intro res i r hres h
    by_cases hlt : res < i
    · simp only [pow2_loop, hlt, if_true] at h
      refine ih _ _ _ ?_ h
      rcases hres with h0 | ⟨j, hj, rfl⟩
      · left; subst h0; rfl
      · by_cases h31 : j = 31
        · left; subst h31; norm_num [U32, Nat.shiftLeft_eq]
        · right
          refine ⟨j + 1, by omega, ?_⟩
          have h1 : 2 ^ (j + 1) ≤ 2 ^ 31 := Nat.pow_le_pow_right (by norm_num) (by omega)
          rw [Nat.shiftLeft_eq, ← Nat.pow_succ]
          apply Nat.mod_eq_of_lt
          have : (2 : Nat) ^ 31 < U32 := by norm_num [U32]
          omega
    · simp only [pow2_loop, hlt, if_false, Option.some.injEq] at h
      subst h
      rcases hres with h0 | ⟨j, hj, rfl⟩
      · omega
      · exact Nat.pow_le_pow_right (by norm_num) hj

/-- What a result of `pow2` says about its argument. -/
theorem pow2_char (n r : Nat) (h : pow2 n = some r) :
    n ≤ 2 ^ 31 ∧ n ≤ r ∧ 1 ≤ r ∧ (n = 1 → r = 2) ∧ (n ≠ 1 → IsSmallestPow2Ge r n) := by
  have hn : n ≤ 2 ^ 31 := by
    by_cases h1 : n = 1
    · subst h1; norm_num
    · have hge := (pow2_ge n r h).1
      unfold pow2 at h
      simp only [h1, if_false] at h
      have := pow2_loop_le 64 1 n r (Or.inr ⟨0, by norm_num, by norm_num⟩) h
      omega
  obtain ⟨r', hr', h1r, _, hpow, hge, hone, hhalf⟩ := pow2_some n hn
  rw [h] at hr'
  have hrr : r = r' := Option.some.inj hr'
  subst hrr
  refine ⟨hn, hge, h1r, hone, fun hne => ?_⟩
  exact isSmallestPow2Ge_of_half r n hpow hge (hhalf hne)

theorem pow2_loop_mono_le (d : Nat) :
    ∀ fuel res i r, pow2_loop fuel res i = some r → pow2_loop (fuel + d) res i = some r := by
  induction d with
  | zero => intro fuel res i r h; exact h
  | succ d ih =>
    intro fuel res i r h
    exact pow2_loop_mono (fuel + d) res i r (ih fuel res i r h)

/-- The fuel of `pow2` is adequate: whenever the loop terminates with a
result after any number of iterations, 64 iterations give that result. -/
theorem pow2_fuel_adequate (fuel i r : Nat) (h : pow2_loop fuel 1 i = some r) :
    pow2_loop 64 1 i = some r := by
  have hge := (pow2_loop_ge fuel 1 i r h).1
  have hle := pow2_loop_le fuel 1 i r (Or.inr ⟨0, by norm_num, by norm_num⟩) h
  obtain ⟨k, _, _, hres, _, _⟩ :=
    pow2_loop_pow 64 0 i (by norm_num) (by omega) (Or.inl rfl) (by norm_num)
  have hres2 : pow2_loop 64 1 i = some (2 ^ k) := by simpa using hres
  have h1 := pow2_loop_mono_le 64 fuel 1 i r h
  have h2 := pow2_loop_mono_le fuel 64 1 i (2 ^ k) hres2
  rw [Nat.add_comm, h1] at h2
  rw [hres2, ← Option.some.inj h2]

theorem sample_face_fits : sample_face.Fits := by
  intro ch g hg
  unfold sample_face at hg
  simp only at hg
  split_ifs at hg
  · cases Option.some.inj hg
    exact ⟨rfl, 1, 1, by decide, by decide, by norm_num⟩
  · cases Option.some.inj hg
    exact ⟨rfl, 2, 2, by decide, by decide, by norm_num⟩
  · cases Option.some.inj hg
    exact ⟨rfl, 2, 2, by decide, by decide, by norm_num⟩

/-- Claim C7 (amended). For a loaded font and a code point `c` that is not
yet cached, if the rasterizer fails for `c` then `generate_glyph_texture(c)`
returns `false` and makes no GPU call: the only steps it makes are its entry
and the failing FreeType calls.  It leaves `char_properties_` unchanged, and
changes `textures_` at most at `c`, where the access `textures_[c]` leaves
the handle `0`; the entries of all other code points are unchanged. -/
theorem generate_glyph_texture_failure_atomic (font : Font) (env : Env) (c : Nat)
    (face : FT_Face) (hface : font.face_ = some face)
    (hmiss : font.textures_ c = none ∨ font.textures_ c = some 0)
    (hfail : face.FT_Load_Glyph c = none ∨ face.FT_Get_Glyph c = none) :
    ∃ font' env' evs, font.generate_glyph_texture env c = some (false, font', env') ∧
      font'.char_properties_ = font.char_properties_ ∧
      font'.textures_ c = some 0 ∧
      (∀ c', c' ≠ c → font'.textures_ c' = font.textures_ c') ∧
      font'.face_ = font.face_ ∧ font'.ttf_ = font.ttf_ ∧
      font'.font_size_ = font.font_size_ ∧
      env'.log = env.log ++ evs ∧
      (evs = [Event.generate_glyph_texture c, Event.FT_Load_Glyph c] ∨
       evs = [Event.generate_glyph_texture c, Event.FT_Load_Glyph c, Event.FT_Get_Glyph c]) ∧
      (∀ e ∈ evs, e.is_gpu_call = false) ∧
      gpu_calls env'.log = gpu_calls env.log ∧
      env'.allocated = env.allocated ∧ allocations env'.log = allocations env.log ∧
      env'.names = env.names := by
  have hm : (map_index 0 font.textures_ c).1 = 0 := by
    rw [map_index_fst]
    rcases hmiss with h | h <;> simp [h]
  obtain ⟨env', hres, hn, halloc, _, _, evs, hlog, hevs⟩ :=
    generate_glyph_texture_fail font env c face hface hm hfail
  have hgpu : ∀ e ∈ Event.generate_glyph_texture c :: Event.FT_Load_Glyph c :: evs,
      e.is_gpu_call = false := by
    intro e he
    rcases hevs with h | h <;> simp [h] at he <;> rcases he with h | h | h <;>
      (subst h; rfl)
  refine ⟨_, env', Event.generate_glyph_texture c :: Event.FT_Load_Glyph c :: evs, hres, rfl,
    ?_, fun c' hc' => map_index_snd_ne 0 _ c c' hc', rfl, rfl, rfl, hlog, ?_, hgpu, ?_, halloc,
    ?_, hn⟩
  · show (map_index 0 font.textures_ c).2 c = some 0
    rw [map_index_snd_self, hm]
  · rcases hevs with h | h
    · left; rw [h]
    · right; rw [h]
  · rw [hlog, gpu_calls, List.filter_append]
    have hnil : List.filter Event.is_gpu_call
        (Event.generate_glyph_texture c :: Event.FT_Load_Glyph c :: evs) = [] := by
      rw [List.filter_eq_nil_iff]
      intro e he
      rw [hgpu e he]
      exact Bool.false_ne_true
    rw [hnil, List.append_nil]
    rfl
  · rw [hlog]
    rcases hevs with h | h <;> simp [h, allocations, List.filterMap_append]

/-- Instance of claim C7 (amended) at the sample font and the code point 7. -/
theorem generate_glyph_texture_failure_atomic_witness :
    ∃ font' env' evs,
      sample_font.generate_glyph_texture sample_env 7 = some (false, font', env') ∧
      font'.char_properties_ = sample_font.char_properties_ ∧
      font'.textures_ 7 = some 0 ∧
      (∀ c', c' ≠ 7 → font'.textures_ c' = sample_font.textures_ c') ∧
      font'.face_ = sample_font.face_ ∧ font'.ttf_ = sample_font.ttf_ ∧
      font'.font_size_ = sample_font.font_size_ ∧
      env'.log = sample_env.log ++ evs ∧
      (evs = [Event.generate_glyph_texture 7, Event.FT_Load_Glyph 7] ∨
       evs = [Event.generate_glyph_texture 7, Event.FT_Load_Glyph 7, Event.FT_Get_Glyph 7]) ∧
      (∀ e ∈ evs, e.is_gpu_call = false) ∧
      gpu_calls env'.log = gpu_calls sample_env.log ∧
      env'.allocated = sample_env.allocated ∧
      allocations env'.log = allocations sample_env.log ∧
      env'.names = sample_env.names :=
  generate_glyph_texture_failure_atomic sample_font sample_env 7 sample_face rfl
    (Or.inl rfl) (Or.inl rfl)

/-- Claim C7 as stated fails: the code point 7 is not cached in the sample
font (neither map has the key), the rasterizer fails for it, and after the
call `textures_` has the key 7, with the handle `0`. -/
theorem generate_glyph_texture_failure_atomic_counterexample :
    sample_font.textures_ 7 = none ∧ sample_font.char_properties_ 7 = none ∧
    sample_face.FT_Load_Glyph 7 = none ∧
    ∃ font' env', sample_font.generate_glyph_texture sample_env 7 = some (false, font', env') ∧
      font'.textures_ 7 = some 0 ∧ font'.textures_ 7 ≠ none :=
  ⟨rfl, rfl, rfl, _, _, rfl, rfl, by decide⟩

theorem generate_glyph_texture_miss_record (self : Font) (env : Env) (ch : Nat)
    (face : FT_Face) (slot : FT_GlyphSlot) (g : FT_BitmapGlyph) (b : Bool) (font' : Font)
    (env' : Env)
    (hface : self.face_ = some face) (hmiss : (map_index 0 self.textures_ ch).1 = 0)
    (hload : face.FT_Load_Glyph ch = some slot) (hget : face.FT_Get_Glyph ch = some g)
    (hres : self.generate_glyph_texture env ch = some (b, font', env')) :
    ∃ tw th, pow2 g.bitmap.width = some tw ∧ pow2 g.bitmap.rows = some th ∧
      font'.char_properties_ ch =
        some (glyph_record (map_index Font.Char.zero self.char_properties_ ch).1
          slot g tw th) := by
  unfold Font.generate_glyph_texture at hres
  rw [hmiss, hface] at hres
  simp only [gt_iff_lt, lt_irrefl, if_false, hload, hget] at hres
  unfold generate_glyph_texture_miss at hres
  cases htw : pow2 g.bitmap.width with
  | none => simp [htw] at hres
  | some tw =>
    cases hth : pow2 g.bitmap.rows with
    | none => simp [htw, hth] at hres
    | some th =>
      cases hd : glyph_data g.bitmap tw th with
      | none => simp [htw, hth, hd] at hres
      | some data =>
        simp only [htw, hth, hd, Option.some.injEq, Prod.mk.injEq] at hres
        obtain ⟨_, hf, _⟩ := hres
        refine ⟨tw, th, rfl, rfl, ?_⟩
        rw [← hf]
        simp [map_assign]

/-- Claim C6 (amended). The record stored by a successful
`generate_glyph_texture` for a rasterized bitmap of width `w` and rows `h`
has `texture_width = pow2(w)` and `texture_height = pow2(h)`, which is `2`
for a dimension of `1` and the smallest power of two at least the dimension
otherwise.  For a dimension of at most `2^24`, which `float` holds exactly (as
it does every power of two up to `2^31`, and the quotient of the two),
`tex_coord_x = w / texture_width` and `tex_coord_y = h / texture_height` as
exact rationals, the extent lies in `[0, 1]`, and it is positive exactly when
the dimension is not `0`. -/
theorem generate_glyph_texture_record_invariant (font : Font) (env : Env) (c : Nat)
    (face : FT_Face) (slot : FT_GlyphSlot) (g : FT_BitmapGlyph) (font' : Font) (env' : Env)
    (hface : font.face_ = some face) (hmiss : (map_index 0 font.textures_ c).1 = 0)
    (hload : face.FT_Load_Glyph c = some slot) (hget : face.FT_Get_Glyph c = some g)
    (hres : font.generate_glyph_texture env c = some (true, font', env')) :
    ∃ r, font'.char_properties_ c = some r ∧
      r.width = g.bitmap.width ∧ r.height = g.bitmap.rows ∧
      pow2 g.bitmap.width = some r.texture_width ∧
      pow2 g.bitmap.rows = some r.texture_height ∧
      (g.bitmap.width = 1 → r.texture_width = 2) ∧
      (g.bitmap.width ≠ 1 → IsSmallestPow2Ge r.texture_width g.bitmap.width) ∧
      (g.bitmap.rows = 1 → r.texture_height = 2) ∧
      (g.bitmap.rows ≠ 1 → IsSmallestPow2Ge r.texture_height g.bitmap.rows) ∧
      (g.bitmap.width ≤ 2 ^ 24 →
        r.tex_coord_x = (g.bitmap.width : ℚ) / (r.texture_width : ℚ) ∧
        0 ≤ r.tex_coord_x ∧ r.tex_coord_x ≤ 1 ∧
        (0 < r.tex_coord_x ↔ g.bitmap.width ≠ 0)) ∧
      (g.bitmap.rows ≤ 2 ^ 24 →
        r.tex_coord_y = (g.bitmap.rows : ℚ) / (r.texture_height : ℚ) ∧
        0 ≤ r.tex_coord_y ∧ r.tex_coord_y ≤ 1 ∧
        (0 < r.tex_coord_y ↔ g.bitmap.rows ≠ 0)) := by
  obtain ⟨tw, th, htw, hth, hrec⟩ :=
    generate_glyph_texture_miss_record font env c face slot g true font' env'
      hface hmiss hload hget hres
  obtain ⟨_, hwle, hw1, hwone, hwmin⟩ := pow2_char _ _ htw
  obtain ⟨_, hhle, hh1, hhone, hhmin⟩ := pow2_char _ _ hth
  have htwpos : (0 : ℚ) < (tw : ℚ) := by exact_mod_cast hw1
  have hthpos : (0 : ℚ) < (th : ℚ) := by exact_mod_cast hh1
  have hwq : (g.bitmap.width : ℚ) ≤ (tw : ℚ) := by exact_mod_cast hwle
  have hhq : (g.bitmap.rows : ℚ) ≤ (th : ℚ) := by exact_mod_cast hhle
  have hw0 : (0 : ℚ) ≤ (g.bitmap.width : ℚ) := Nat.cast_nonneg _
  have hh0 : (0 : ℚ) ≤ (g.bitmap.rows : ℚ) := Nat.cast_nonneg _
  refine ⟨_, hrec, rfl, rfl, htw, hth, hwone, hwmin, hhone, hhmin,
    fun _ => ⟨rfl, ?_, ?_, ?_⟩, fun _ => ⟨rfl, ?_, ?_, ?_⟩⟩
  · exact div_nonneg hw0 htwpos.le
  · exact (div_le_one htwpos).mpr hwq
  · show 0 < (g.bitmap.width : ℚ) / (tw : ℚ) ↔ _
    rw [div_pos_iff_of_pos_right htwpos, Nat.cast_pos]
    omega
  · exact div_nonneg hh0 hthpos.le
  · exact (div_le_one hthpos).mpr hhq
  · show 0 < (g.bitmap.rows : ℚ) / (th : ℚ) ↔ _
    rw [div_pos_iff_of_pos_right hthpos, Nat.cast_pos]
    omega

/-- Instance of claim C6 (amended) at the sample font and the code point 233,
whose bitmap has 2 x 1 pixels. -/
theorem generate_glyph_texture_record_invariant_witness :
    ∃ font' env', sample_font.generate_glyph_texture sample_env 233 = some (true, font', env') ∧
      ∃ r, font'.char_properties_ 233 = some r ∧ r.width = 2 ∧ r.height = 1 ∧
        r.texture_width = 2 ∧ r.texture_height = 2 ∧
        (r.tex_coord_x = ((2 : Nat) : ℚ) / (r.texture_width : ℚ) ∧
          0 ≤ r.tex_coord_x ∧ r.tex_coord_x ≤ 1 ∧ (0 < r.tex_coord_x ↔ 2 ≠ 0)) ∧
        (r.tex_coord_y = ((1 : Nat) : ℚ) / (r.texture_height : ℚ) ∧
          0 ≤ r.tex_coord_y ∧ r.tex_coord_y ≤ 1 ∧ (0 < r.tex_coord_y ↔ 1 ≠ 0)) := by
  refine ⟨_, _, rfl, ?_⟩
  obtain ⟨r, hr, hw, hh, htw, hth, _, _, _, _, hx, hy⟩ :=
    generate_glyph_texture_record_invariant sample_font sample_env 233 sample_face
      _ _ _ _ rfl rfl rfl rfl rfl
  refine ⟨r, hr, hw, hh, ?_, ?_, hx (by norm_num), hy (by norm_num)⟩
  · have h : pow2 2 = some 2 := by decide
    exact Option.some.inj (htw.symm.trans h)
  · have h : pow2 1 = some 2 := by decide
    exact Option.some.inj (hth.symm.trans h)

/-- Claim C6 as stated fails.  For the full stop of the sample font, whose
bitmap has width 1, the stored `texture_width` is 2, which is not the smallest
power of two that is at least 1.  For the space, whose bitmap is empty, the
stored extent `tex_coord_x` is 0, outside `(0, 1]`. -/
theorem generate_glyph_texture_record_invariant_counterexample :
    (∃ font' env' r,
      sample_font.generate_glyph_texture sample_env 46 = some (true, font', env') ∧
      font'.char_properties_ 46 = some r ∧ r.width = 1 ∧ r.texture_width = 2 ∧
      ¬ IsSmallestPow2Ge r.texture_width r.width) ∧
    (∃ font' env' r,
      sample_font.generate_glyph_texture sample_env 32 = some (true, font', env') ∧
      font'.char_properties_ 32 = some r ∧ r.width = 0 ∧ r.tex_coord_x = 0 ∧
      ¬ (0 < r.tex_coord_x)) := by
  constructor
  · refine ⟨_, _, _, rfl, rfl, rfl, rfl, ?_⟩
    rintro ⟨_, _, h⟩
    have := h 1 ⟨0, rfl⟩ (le_refl 1)
    exact absurd this (by decide)
  · have h0 : ((0 : Nat) : ℚ) / ((1 : Nat) : ℚ) = 0 := by norm_num
    refine ⟨_, _, _, rfl, rfl, rfl, h0, ?_⟩
    show ¬ (0 : ℚ) < ((0 : Nat) : ℚ) / ((1 : Nat) : ℚ)
    rw [h0]
    exact lt_irrefl 0

/-! ## The loop body of `ktDrawText` -/

theorem Font.props_fst (self : Font) (ch : Nat) : (self.props ch).1 = self.record ch := by
  unfold Font.props Font.record
  exact map_index_fst _ _ _

theorem Font.props_snd_props (self : Font) (ch : Nat) :
    ((self.props ch).2.props ch) = ((self.props ch).1, (self.props ch).2) := by
  unfold Font.props
  simp only [map_index_idem]

theorem ktDrawText_glyph_eq (font : Font) (env : Env) (ch : Nat) :
    ktDrawText_glyph font env ch =
      match font.generate_glyph_texture env ch with
      | none => none
      | some r =>
        some (r.2.1.touch ch,
          { r.2.2 with
            log := r.2.2.log ++ quad_events (r.2.1.record ch) (r.2.1.texture ch) }) := by
  unfold ktDrawText_glyph
  cases hgen : font.generate_glyph_texture env ch with
  | none => rfl
  | some r =>
    obtain ⟨b, f, e⟩ := r
    simp only
    have hp : ∀ g : Font, (g.props ch).2.props ch = ((g.props ch).1, (g.props ch).2) :=
      fun g => Font.props_snd_props g ch
    have ht : ((f.props ch).2.get_char_texture ch).2.props ch =
        ((f.props ch).1, ((f.props ch).2.get_char_texture ch).2) := by
      unfold Font.get_char_texture Font.props
      simp only [map_index_idem]
    have ht2 : (((f.props ch).2.get_char_texture ch).2.props ch).2.props ch =
        ((f.props ch).1, ((f.props ch).2.get_char_texture ch).2) := by
      rw [ht]
      simp only
      exact ht
    simp only [Font.get_char_left, Font.get_char_top, Font.get_char_height,
      Font.get_char_tex_coord_x, Font.get_char_tex_coord_y, Font.get_char_width,
      Font.get_char_advance_x, hp, ht, ht2]
    have htex : ((f.props ch).2.get_char_texture ch).1 = f.texture ch := by
      unfold Font.get_char_texture Font.props Font.texture
      exact map_index_fst _ _ _
    have hfont : ((f.props ch).2.get_char_texture ch).2 = f.touch ch := rfl
    rw [htex, hfont, Font.props_fst]
    simp [Env.emit, quad_events]

/-- Every outcome of `generate_glyph_texture` on a loaded font whose bitmaps
fit: a hit, a rasterizer failure, or a successful miss. -/
theorem generate_glyph_texture_summary (self : Font) (env : Env) (ch : Nat) (face : FT_Face)
    (hface : self.face_ = some face) (hfits : face.Fits) :
    ∃ b font' env' evs,
      self.generate_glyph_texture env ch = some (b, font', env') ∧
      font'.face_ = some face ∧
      (∀ c, c ≠ ch → font'.textures_ c = self.textures_ c) ∧
      (∀ c, c ≠ ch → font'.char_properties_ c = self.char_properties_ c) ∧
      env'.names = env.names ∧ env'.FT_New_Face = env.FT_New_Face ∧
      env'.FT_Set_Char_Size = env.FT_Set_Char_Size ∧
      env'.log = env.log ++ evs ∧ calls evs = [ch] ∧
      (∀ e ∈ evs, e.is_cache_event = true) ∧
      font'.textures_ ch ≠ none ∧
      ((∃ t, self.textures_ ch = some t ∧ 0 < t ∧ font' = self ∧
          env'.allocated = env.allocated ∧ allocations evs = [] ∧ rasterizations evs = []) ∨
       ((map_index 0 self.textures_ ch).1 = 0 ∧ ¬ face.Rasterizes ch ∧ b = false ∧
          font'.textures_ ch = some 0 ∧ font'.char_properties_ = self.char_properties_ ∧
          env'.allocated = env.allocated ∧ allocations evs = []) ∨
       ((map_index 0 self.textures_ ch).1 = 0 ∧ face.Rasterizes ch ∧ b = true ∧
          font'.textures_ ch = some (env.names env.allocated) ∧
          font'.RecordFrom face ch ∧
          env'.allocated = env.allocated + 1 ∧
          allocations evs = [env.names env.allocated])) := by
  by_cases hhit : ∃ t, self.textures_ ch = some t ∧ 0 < t
  · obtain ⟨t, ht, hpos⟩ := hhit
    refine ⟨true, self, env.emit (Event.generate_glyph_texture ch),
      [Event.generate_glyph_texture ch],
      generate_glyph_texture_hit self env ch t ht hpos, hface, fun _ _ => rfl, fun _ _ => rfl,
      rfl, rfl, rfl, rfl, rfl, ?_, ?_, Or.inl ⟨t, ht, hpos, rfl, rfl, rfl, rfl⟩⟩
    · intro e he
      simp only [List.mem_singleton] at he
      subst he
      rfl
    · rw [ht]; exact Option.some_ne_none t
  · have hmiss : (map_index 0 self.textures_ ch).1 = 0 := by
      rw [map_index_fst]
      cases ht : self.textures_ ch with
      | none => rfl
      | some t =>
        have : ¬ 0 < t := fun h => hhit ⟨t, ht, h⟩
        simp only [Option.getD_some]
        omega
    have htouch : (map_index 0 self.textures_ ch).2 ch = some 0 := by
      rw [map_index_snd_self, hmiss]
    by_cases hfail : face.FT_Load_Glyph ch = none ∨ face.FT_Get_Glyph ch = none
    · obtain ⟨env', hres, hn, halloc, hnf, hsc, evs, hlog, hevs⟩ :=
        generate_glyph_texture_fail self env ch face hface hmiss hfail
      refine ⟨false, _, env',
        Event.generate_glyph_texture ch :: Event.FT_Load_Glyph ch :: evs, hres, hface,
        fun c hc => map_index_snd_ne 0 _ ch c hc, fun _ _ => rfl, hn, hnf, hsc, hlog, ?_, ?_,
        ?_, Or.inr (Or.inl ⟨hmiss, ?_, rfl, htouch, rfl, halloc, ?_⟩)⟩
      · rcases hevs with h | h <;> simp [h, calls]
      · intro e he
        rcases hevs with h | h <;> simp [h] at he <;> rcases he with h | h | h <;>
          (subst h; rfl)
      · show (map_index 0 self.textures_ ch).2 ch ≠ none
        rw [htouch]; exact Option.some_ne_none 0
      · rintro ⟨h1, h2⟩
        rcases hfail with h | h
        · rw [h] at h1; exact Bool.noConfusion h1
        · rw [h] at h2; exact Bool.noConfusion h2
      · rcases hevs with h | h <;> simp [h, allocations]
    · have hl : ∃ slot, face.FT_Load_Glyph ch = some slot := by
        cases h : face.FT_Load_Glyph ch with
        | none => exact absurd (Or.inl h) hfail
        | some slot => exact ⟨slot, rfl⟩
      have hg : ∃ g, face.FT_Get_Glyph ch = some g := by
        cases h : face.FT_Get_Glyph ch with
        | none => exact absurd (Or.inr h) hfail
        | some g => exact ⟨g, rfl⟩
      obtain ⟨slot, hslot⟩ := hl
      obtain ⟨g, hget⟩ := hg
      obtain ⟨tw, th, data, env', htw, hth, _, hres, hn, halloc, hnf, hsc, hlog⟩ :=
        generate_glyph_texture_miss_ok self env ch face slot g hface hmiss hslot hget
          (hfits ch g hget)
      refine ⟨true, _, env',
        Event.generate_glyph_texture ch :: miss_events ch tw th (env.names env.allocated) data,
        hres, hface, ?_, ?_, hn, hnf, hsc, hlog, ?_, ?_, ?_,
        Or.inr (Or.inr ⟨hmiss, ⟨by rw [hslot]; rfl, by rw [hget]; rfl⟩, rfl, ?_,
          ⟨slot, g, tw, th, hslot, hget, htw, hth, ?_⟩, halloc, ?_⟩)⟩
      · intro c hc
        show map_assign _ ch _ c = _
        unfold map_assign
        rw [if_neg hc]
        exact map_index_snd_ne 0 _ ch c hc
      · intro c hc
        show map_assign _ ch _ c = _
        unfold map_assign
        rw [if_neg hc]
      · simp [calls, miss_events]
      · intro e he
        simp only [miss_events, List.mem_cons, List.mem_singleton, List.not_mem_nil,
          or_false] at he
        rcases he with h | h | h | h | h | h | h | h | h | h | h <;> (subst h; rfl)
      · show map_assign _ ch _ ch ≠ none
        simp [map_assign]
      · show map_assign _ ch _ ch = _
        simp [map_assign]
      · show map_assign _ ch _ ch = _
        unfold map_assign
        rw [if_pos rfl]
        rfl
      · simp [allocations, miss_events]

/-! ## `Font::load` and `ktLoadFont` -/

/-- The 32-bit shift of `Font::load`: size 24 gives the character size 1536,
and from size `2^25` on the shift wraps (`2^25 << 6` is `-2147483648`). -/
theorem shl_int32_examples :
    shl_int32 (toInt32 24) 6 = 1536 ∧ shl_int32 (toInt32 33554432) 6 = -2147483648 ∧
    shl_int32 (toInt32 33554433) 6 = -2147483584 := by
  decide

theorem calls_append (a b : List Event) : calls (a ++ b) = calls a ++ calls b := by
  unfold calls
  exact List.filterMap_append _ _ _

theorem load_loop_spec (face : FT_Face) (hfits : face.Fits) (fuel : Nat) :
    ∀ (i : Nat) (font : Font) (env : Env), 128 - i < fuel → i ≤ 128 →
      font.face_ = some face → (∀ k, env.names k ≠ 0) →
      (∀ c, i ≤ c → font.textures_ c = none) →
      ∃ font' env' evs, Font.load_loop fuel i font env = some (font', env') ∧
        font'.face_ = some face ∧ font'.ttf_ = font.ttf_ ∧ font'.font_size_ = font.font_size_ ∧
        env'.names = env.names ∧ env'.FT_New_Face = env.FT_New_Face ∧
        env'.FT_Set_Char_Size = env.FT_Set_Char_Size ∧
        env'.log = env.log ++ evs ∧ calls evs = List.range' i (128 - i) ∧
        (∀ c, c < i ∨ 128 ≤ c →
          font'.textures_ c = font.textures_ c ∧
          font'.char_properties_ c = font.char_properties_ c) ∧
        (∀ c, i ≤ c → c ≤ 127 → face.Rasterizes c →
          ∃ t r, font'.textures_ c = some t ∧ t ≠ 0 ∧ font'.char_properties_ c = some r) := by
  induction fuel with
  | zero => intro i _ _ h; omega
  | succ fuel ih =>
    intro i font env hfuel hi hface hnames hfresh
    by_cases hle : i ≤ 127
    · have hsub : 128 - i = (128 - (i + 1)) + 1 := by omega
      have hfuel1 : 128 - (i + 1) < fuel := by omega
      obtain ⟨b, f1, e1, evs1, hres, hface1, hft, hfp, hn1, hnf1, hsc1, hlog1, hcalls1, _, _,
        hcase⟩ := generate_glyph_texture_summary font env i face hface hfits
      have hfresh1 : ∀ c, i + 1 ≤ c → f1.textures_ c = none := by
        intro c hc
        rw [hft c (by omega)]
        exact hfresh c (by omega)
      obtain ⟨f2, e2, evs2, hres2, hface2, httf2, hsz2, hn2, hnf2, hsc2, hlog2, hcalls2,
        hframe2, hcached2⟩ :=
        ih (i + 1) f1 e1 hfuel1 (by omega) hface1 (by rw [hn1]; exact hnames) hfresh1
      have hsame : f1.ttf_ = font.ttf_ ∧ f1.font_size_ = font.font_size_ := by
        unfold Font.generate_glyph_texture at hres
        split_ifs at hres
        · cases hres; exact ⟨rfl, rfl⟩
        · rw [hface] at hres
          simp only at hres
          split at hres
          · cases hres; exact ⟨rfl, rfl⟩
          · split at hres
            · cases hres; exact ⟨rfl, rfl⟩
            · unfold generate_glyph_texture_miss at hres
              split at hres
              · split at hres
                · exact Option.noConfusion hres
                · cases hres; exact ⟨rfl, rfl⟩
              · exact Option.noConfusion hres
      refine ⟨f2, e2, evs1 ++ evs2, ?_, hface2, by rw [httf2, hsame.1], by rw [hsz2, hsame.2],
        by rw [hn2, hn1], by rw [hnf2, hnf1], by rw [hsc2, hsc1], ?_, ?_, ?_, ?_⟩
      · simp only [Font.load_loop, hle, if_true, hres]
        exact hres2
      · rw [hlog2, hlog1, List.append_assoc]
      · rw [calls_append, hcalls1, hcalls2]
        rw [hsub, List.range'_succ]
        rfl
      · intro c hc
        obtain ⟨h1, h2⟩ := hframe2 c (by omega)
        rw [h1, h2]
        exact ⟨hft c (by omega), hfp c (by omega)⟩
      · intro c hc1 hc2 hrast
        by_cases hci : c = i
        · subst hci
          obtain ⟨h1, h2⟩ := hframe2 c (Or.inl (by omega))
          rw [h1, h2]
          rcases hcase with ⟨t, ht, _⟩ | ⟨_, hnr, _⟩ |
            ⟨_, _, _, htex, ⟨_, _, _, _, _, _, _, _, hr⟩, _⟩
          · rw [hfresh c (le_refl c)] at ht
            exact Option.noConfusion ht
          · exact absurd hrast hnr
          · exact ⟨_, _, htex, hnames _, hr⟩
        · exact hcached2 c (by omega) hc2 hrast
    · have hi128 : i = 128 := by omega
      subst hi128
      refine ⟨font, env, [], ?_, hface, rfl, rfl, rfl, rfl, rfl, by simp, by simp [calls],
        fun _ _ => ⟨rfl, rfl⟩, fun c h1 h2 _ => by omega⟩
      simp only [Font.load_loop, hle, if_false]

/-- The call `Font::load` when the face opens and its bitmaps fit. -/
theorem font_load_ok (self : Font) (env : Env) (face0 : FT_Face)
    (hopen : env.FT_New_Face self.ttf_ = some face0)
    (hfits : (env.FT_Set_Char_Size face0 (shl_int32 self.font_size_ 6) (shl_int32 self.font_size_ 6)).Fits)
    (hnames : ∀ k, env.names k ≠ 0)
    (hfresh : ∀ c, 32 ≤ c → self.textures_ c = none) :
    ∃ font' env' evs, self.load env = some (true, font', env') ∧
      font'.face_ =
        some (env.FT_Set_Char_Size face0 (shl_int32 self.font_size_ 6) (shl_int32 self.font_size_ 6)) ∧
      env'.names = env.names ∧ env'.FT_New_Face = env.FT_New_Face ∧
      env'.FT_Set_Char_Size = env.FT_Set_Char_Size ∧
      env'.log = env.log ++ Event.FT_New_Face self.ttf_ ::
        Event.FT_Set_Char_Size (shl_int32 self.font_size_ 6) (shl_int32 self.font_size_ 6) 96 96 :: evs ∧
      calls evs = List.range' 32 96 ∧
      (∀ c, c < 32 ∨ 128 ≤ c →
        font'.textures_ c = self.textures_ c ∧
        font'.char_properties_ c = self.char_properties_ c) ∧
      (∀ c, 32 ≤ c → c ≤ 127 →
        (env.FT_Set_Char_Size face0 (shl_int32 self.font_size_ 6)
          (shl_int32 self.font_size_ 6)).Rasterizes c →
        ∃ t r, font'.textures_ c = some t ∧ t ≠ 0 ∧ font'.char_properties_ c = some r) := by
  obtain ⟨f, e, evs, hres, hface, _, _, hn, hnf, hsc, hlog, hcalls, hframe, hcached⟩ :=
    load_loop_spec _ hfits 128 32
      { self with
        face_ := some (env.FT_Set_Char_Size face0 (shl_int32 self.font_size_ 6)
          (shl_int32 self.font_size_ 6)) }
      ((env.emit (Event.FT_New_Face self.ttf_)).emit
        (Event.FT_Set_Char_Size (shl_int32 self.font_size_ 6) (shl_int32 self.font_size_ 6) 96 96))
      (by norm_num) (by norm_num) rfl hnames hfresh
  refine ⟨f, e, evs, ?_, hface, hn, hnf, hsc, ?_, hcalls, hframe, hcached⟩
  · unfold Font.load
    rw [hopen]
    simp only [hres]
  · rw [hlog]
    simp [Env.emit]

/-- Claim C8. Whenever `Font::load` opens the face (with bitmaps that fit and
a backend that hands out non-zero names), `load` returns `true`,
`generate_glyph_texture` is entered exactly for the code points
32, 33, ..., 127 in this order, whatever the individual results, and after
`ktLoadFont` every code point in `[32, 127]` whose rasterization succeeds has
a cached record and a non-zero texture handle in the font of the bound slot. -/
theorem load_warms_printable_ascii (s : State) (env : Env) (name : String) (size : Nat)
    (face0 : FT_Face) (hopen : env.FT_New_Face name = some face0)
    (hfits : (env.FT_Set_Char_Size face0 (shl_int32 (toInt32 size) 6) (shl_int32 (toInt32 size) 6)).Fits)
    (hnames : ∀ k, env.names k ≠ 0) :
    ∃ font' env' evs,
      (Font.new name (toInt32 size)).load env = some (true, font', env') ∧
      ktLoadFont s env name size =
        some ((), { s with fonts_ := map_assign s.fonts_ s.current_font_ (some font') }, env') ∧
      env'.log = env.log ++ Event.FT_New_Face name ::
        Event.FT_Set_Char_Size (shl_int32 (toInt32 size) 6) (shl_int32 (toInt32 size) 6) 96 96 :: evs ∧
      calls evs = List.range' 32 96 ∧
      (∀ c, c ∈ calls evs ↔ 32 ≤ c ∧ c ≤ 127) ∧
      (∀ c, 32 ≤ c → c ≤ 127 →
        (env.FT_Set_Char_Size face0 (shl_int32 (toInt32 size) 6) (shl_int32 (toInt32 size) 6)).Rasterizes c →
        ∃ t r, font'.textures_ c = some t ∧ t ≠ 0 ∧ font'.char_properties_ c = some r) := by
  obtain ⟨f, e, evs, hres, _, _, _, _, hlog, hcalls, _, hcached⟩ :=
    font_load_ok (Font.new name (toInt32 size)) env face0 hopen hfits hnames (fun _ _ => rfl)
  refine ⟨f, e, evs, hres, ?_, hlog, hcalls, ?_, hcached⟩
  · unfold ktLoadFont
    rw [hres]
  · intro c
    rw [hcalls, List.mem_range']
    constructor
    · rintro ⟨k, hk, rfl⟩; omega
    · intro h; exact ⟨c - 32, by omega, by omega⟩

/-- Instance of claim C8 at the sample world and the path `sample.ttf`. -/
theorem load_warms_printable_ascii_witness :
    ∃ font' env' evs,
      (Font.new sample_ttf (toInt32 24)).load sample_env = some (true, font', env') ∧
      ktLoadFont sample_state sample_env sample_ttf 24 =
        some ((), { sample_state with
          fonts_ := map_assign sample_state.fonts_ sample_state.current_font_ (some font') },
          env') ∧
      env'.log = sample_env.log ++ Event.FT_New_Face sample_ttf ::
        Event.FT_Set_Char_Size (shl_int32 (toInt32 24) 6) (shl_int32 (toInt32 24) 6) 96 96 :: evs ∧
      calls evs = List.range' 32 96 ∧
      (∀ c, c ∈ calls evs ↔ 32 ≤ c ∧ c ≤ 127) ∧
      (∀ c, 32 ≤ c → c ≤ 127 →
        (sample_env.FT_Set_Char_Size sample_face (shl_int32 (toInt32 24) 6)
          (shl_int32 (toInt32 24) 6)).Rasterizes c →
        ∃ t r, font'.textures_ c = some t ∧ t ≠ 0 ∧ font'.char_properties_ c = some r) :=
  load_warms_printable_ascii sample_state sample_env sample_ttf 24 sample_face rfl
    sample_face_fits (fun k => Nat.succ_ne_zero k)

/-- Claim C3 (amended). When the rasterization context cannot open the path
(`Font::load` returns `false`), `ktLoadFont` returns nothing to its caller
(its return type is `void`, the result of `load` is dropped), and afterwards
the slot of the bound handle holds the newly constructed `Font` object for
the path and size, whose face was never opened and whose glyph cache is
empty; the slot's previous content is discarded. -/
theorem ktLoadFont_open_failure (s : State) (env : Env) (name : String) (size : Nat)
    (hfail : env.FT_New_Face name = none) :
    (Font.new name (toInt32 size)).load env =
      some (false, Font.new name (toInt32 size), env.emit (Event.FT_New_Face name)) ∧
    ktLoadFont s env name size =
      some ((),
        { s with
          fonts_ := map_assign s.fonts_ s.current_font_ (some (Font.new name (toInt32 size))) },
        env.emit (Event.FT_New_Face name)) ∧
    (Font.new name (toInt32 size)).face_ = none ∧
    (∀ c, (Font.new name (toInt32 size)).textures_ c = none ∧
      (Font.new name (toInt32 size)).char_properties_ c = none) := by
  have hload : (Font.new name (toInt32 size)).load env =
      some (false, Font.new name (toInt32 size), env.emit (Event.FT_New_Face name)) := by
    unfold Font.load
    have : (Font.new name (toInt32 size)).ttf_ = name := rfl
    rw [this, hfail]
  refine ⟨hload, ?_, rfl, fun _ => ⟨rfl, rfl⟩⟩
  unfold ktLoadFont
  rw [hload]

/-- Instance of claim C3 (amended) at the sample world and the path
`missing.ttf`. -/
theorem ktLoadFont_open_failure_witness :
    (Font.new missing_ttf (toInt32 24)).load sample_env =
      some (false, Font.new missing_ttf (toInt32 24),
        sample_env.emit (Event.FT_New_Face missing_ttf)) ∧
    ktLoadFont sample_state sample_env missing_ttf 24 =
      some ((),
        { sample_state with
          fonts_ := map_assign sample_state.fonts_ sample_state.current_font_
            (some (Font.new missing_ttf (toInt32 24))) },
        sample_env.emit (Event.FT_New_Face missing_ttf)) ∧
    (Font.new missing_ttf (toInt32 24)).face_ = none ∧
    (∀ c, (Font.new missing_ttf (toInt32 24)).textures_ c = none ∧
      (Font.new missing_ttf (toInt32 24)).char_properties_ c = none) :=
  ktLoadFont_open_failure sample_state sample_env missing_ttf 24 rfl

/-- Claim C3 as stated fails: for the path `missing.ttf`, which cannot be
opened, `Font::load` returns `false`, but `ktLoadFont` hands its caller the
same (empty) result as for the path `sample.ttf`, which loads; afterwards the
bound slot holds a `Font` object, and `ktDrawText` dereferences it: drawing a
character has no defined result, measuring one reads its (inserted) record. -/
theorem ktLoadFont_open_failure_counterexample :
    (∃ font env', (Font.new missing_ttf (toInt32 24)).load sample_env =
      some (false, font, env')) ∧
    (∃ font env', (Font.new sample_ttf (toInt32 24)).load sample_env =
      some (true, font, env')) ∧
    (ktLoadFont sample_state sample_env missing_ttf 24).map (fun r => r.1) =
      (ktLoadFont sample_state sample_env sample_ttf 24).map (fun r => r.1) ∧
    ∃ s' env' font, ktLoadFont sample_state sample_env missing_ttf 24 = some ((), s', env') ∧
      s'.fonts_ s'.current_font_ = some (some font) ∧
      ktDrawText s' env' 0 0 [65] = none ∧
      (ktGetStringWidth s' env' [65]).map (fun r => r.1) = some 0 := by
  obtain ⟨f, e, evs, hres, _⟩ :=
    font_load_ok (Font.new sample_ttf (toInt32 24)) sample_env sample_face rfl
      sample_face_fits (fun k => Nat.succ_ne_zero k) (fun _ _ => rfl)
  refine ⟨⟨_, _, rfl⟩, ⟨f, e, hres⟩, ?_, _, _, _, rfl, rfl, rfl, ?_⟩
  · have h2 : ktLoadFont sample_state sample_env sample_ttf 24 =
        some ((), { sample_state with
          fonts_ := map_assign sample_state.fonts_ sample_state.current_font_ (some f) },
          e) := by
      unfold ktLoadFont
      rw [hres]
    rw [h2]
    rfl
  · simp [ktGetStringWidth, ktGetStringWidth_loop, map_index, map_assign,
      Font.get_char_advance_x, Font.props, Font.new, Font.Char.zero]

/-! ## `ktDrawText` -/

theorem Font.touch_record (self : Font) (ch c : Nat) :
    (self.touch ch).record c = self.record c := by
  unfold Font.touch Font.record
  by_cases h : c = ch
  · subst h
    simp only [map_index_snd_self, Option.getD_some, map_index_fst]
  · simp only [map_index_snd_ne _ _ _ _ h]

theorem Font.touch_texture (self : Font) (ch c : Nat) :
    (self.touch ch).texture c = self.texture c := by
  unfold Font.touch Font.texture
  by_cases h : c = ch
  · subst h
    simp only [map_index_snd_self, Option.getD_some, map_index_fst]
  · simp only [map_index_snd_ne _ _ _ _ h]

theorem Font.touch_ne (self : Font) (ch c : Nat) (h : c ≠ ch) :
    (self.touch ch).textures_ c = self.textures_ c ∧
    (self.touch ch).char_properties_ c = self.char_properties_ c :=
  ⟨map_index_snd_ne _ _ _ _ h, map_index_snd_ne _ _ _ _ h⟩

theorem Font.touch_present (self : Font) (ch : Nat)
    (ht : (self.textures_ ch).isSome = true) (hp : (self.char_properties_ ch).isSome = true) :
    self.touch ch = self := by
  obtain ⟨t, ht⟩ := Option.isSome_iff_exists.mp ht
  obtain ⟨r, hr⟩ := Option.isSome_iff_exists.mp hp
  unfold Font.touch
  rw [map_index_of_some _ _ _ _ ht, map_index_of_some _ _ _ _ hr]

/-- One iteration of the loop of `ktDrawText` on a loaded font. -/
theorem ktDrawText_glyph_spec (font : Font) (env : Env) (ch : Nat) (face : FT_Face)
    (hface : font.face_ = some face) (hfits : face.Fits) (hnames : ∀ k, env.names k ≠ 0) :
    ∃ font1 env1 gevs,
      ktDrawText_glyph font env ch = some (font1, env1) ∧
      font1.face_ = some face ∧ env1.names = env.names ∧
      env1.log = env.log ++ (gevs ++ quad_events (font1.record ch) (font1.texture ch)) ∧
      (∀ e ∈ gevs, e.is_cache_event = true) ∧ calls gevs = [ch] ∧
      (font.Settled face ch → allocations gevs = [] ∧ env1.allocated = env.allocated) ∧
      font1.Settled face ch ∧
      (∀ c, c ≠ ch ∨ font.Settled face ch →
        font1.textures_ c = font.textures_ c ∧
        font1.char_properties_ c = font.char_properties_ c) ∧
      (font.texture ch = 0 → face.Rasterizes ch → font1.RecordFrom face ch) := by
  obtain ⟨b, f1, e1, evs, hres, hface1, hft, hfp, hn1, _, _, hlog1, hcalls1, hcache, hpres,
    hcase⟩ := generate_glyph_texture_summary font env ch face hface hfits
  have hprops : ((f1.touch ch).char_properties_ ch).isSome = true := by
    show ((map_index Font.Char.zero f1.char_properties_ ch).2 ch).isSome = true
    rw [map_index_snd_self]
    rfl
  have htex : (f1.touch ch).textures_ ch = f1.textures_ ch := by
    show (map_index 0 f1.textures_ ch).2 ch = f1.textures_ ch
    cases h : f1.textures_ ch with
    | none => exact absurd h hpres
    | some t => rw [map_index_of_some _ _ _ _ h]; exact h
  refine ⟨f1.touch ch, { e1 with log := e1.log ++ quad_events (f1.record ch) (f1.texture ch) },
    evs, ?_, hface1, hn1, ?_, hcache, hcalls1, ?_, ⟨hprops, ?_⟩, ?_, ?_⟩
  · rw [ktDrawText_glyph_eq, hres]
  · show e1.log ++ _ = _
    rw [hlog1, Font.touch_record, Font.touch_texture, List.append_assoc]
  · rintro ⟨_, hs⟩
    rcases hcase with ⟨t, _, _, _, ha, hal, _⟩ | ⟨_, _, _, _, _, ha, hal⟩ |
      ⟨hm, hr, _, _, _, _, _⟩
    · exact ⟨hal, ha⟩
    · exact ⟨hal, ha⟩
    · rw [map_index_fst] at hm
      rcases hs with ⟨t, ht, hpos⟩ | ⟨_, hnr⟩
      · rw [ht] at hm
        simp only [Option.getD_some] at hm
        omega
      · exact absurd hr hnr
  · rw [htex]
    rcases hcase with ⟨t, ht, hpos, hf, _⟩ | ⟨_, hnr, _, ht, _⟩ | ⟨_, _, _, ht, _⟩
    · subst hf
      exact Or.inl ⟨t, ht, hpos⟩
    · exact Or.inr ⟨ht, hnr⟩
    · exact Or.inl ⟨_, ht, Nat.pos_of_ne_zero (hnames _)⟩
  · intro c hc
    by_cases hcc : c = ch
    · subst hcc
      have hs : font.Settled face c := by
        rcases hc with h | h
        · exact absurd rfl h
        · exact h
      obtain ⟨hp, hs2⟩ := hs
      have hf1 : f1.textures_ c = font.textures_ c ∧
          f1.char_properties_ c = font.char_properties_ c := by
        rcases hcase with ⟨t, _, _, hf, _⟩ | ⟨hm, _, _, ht, hpr, _⟩ | ⟨hm, hr, _, _, _, _, _⟩
        · subst hf
          exact ⟨rfl, rfl⟩
        · rcases hs2 with ⟨t, ht2, hpos⟩ | ⟨ht2, _⟩
          · rw [map_index_fst, ht2] at hm
            simp only [Option.getD_some] at hm
            omega
          · exact ⟨by rw [ht, ht2], by rw [hpr]⟩
        · rcases hs2 with ⟨t, ht2, hpos⟩ | ⟨_, hnr⟩
          · rw [map_index_fst, ht2] at hm
            simp only [Option.getD_some] at hm
            omega
          · exact absurd hr hnr
      have hpres1 : (f1.textures_ c).isSome = true := by
        cases h : f1.textures_ c with
        | none => exact absurd h hpres
        | some t => rfl
      rw [Font.touch_present f1 c hpres1 (by rw [hf1.2]; exact hp)]
      exact hf1
    · obtain ⟨h1, h2⟩ := Font.touch_ne f1 ch c hcc
      rw [h1, h2]
      exact ⟨hft c hcc, hfp c hcc⟩
  · intro h0 hr
    rcases hcase with ⟨t, ht, hpos, _⟩ | ⟨_, hnr, _⟩ |
      ⟨_, _, _, _, ⟨slot, g, tw, th, k1, k2, k3, k4, k5⟩, _⟩
    · unfold Font.texture at h0
      rw [ht] at h0
      simp only [Option.getD_some] at h0
      omega
    · exact absurd hr hnr
    · refine ⟨slot, g, tw, th, k1, k2, k3, k4, ?_⟩
      show (map_index Font.Char.zero f1.char_properties_ ch).2 ch = _
      rw [map_index_of_some _ _ _ _ k5]
      exact k5

theorem GLState.run_append (g : GLState) (a b : List Event) :
    g.run (a ++ b) = (g.run a).run b := by
  unfold GLState.run
  exact List.foldl_append _ _ _ _

theorem GLState.step_cache_event (g : GLState) (e : Event) (h : e.is_cache_event = true) :
    (g.step e).matrix = g.matrix ∧ (g.step e).matrix_stack = g.matrix_stack ∧
    (g.step e).enabled = g.enabled ∧ (g.step e).attrib_stack = g.attrib_stack ∧
    (g.step e).quads = g.quads := by
  cases e <;> first | exact ⟨rfl, rfl, rfl, rfl, rfl⟩ | exact Bool.noConfusion h

/-- The steps of `generate_glyph_texture` leave matrices, stacks, enable
state and quads as they are. -/
theorem GLState.run_cache_events (evs : List Event) :
    ∀ g : GLState, (∀ e ∈ evs, e.is_cache_event = true) →
      (g.run evs).matrix = g.matrix ∧ (g.run evs).matrix_stack = g.matrix_stack ∧
      (g.run evs).enabled = g.enabled ∧ (g.run evs).attrib_stack = g.attrib_stack ∧
      (g.run evs).quads = g.quads := by
  induction evs with
  | nil => intro g _; exact ⟨rfl, rfl, rfl, rfl, rfl⟩
  | cons e rest ih =>
    intro g h
    obtain ⟨h1, h2, h3, h4, h5⟩ := g.step_cache_event e (h e (List.mem_cons_self _ _))
    obtain ⟨k1, k2, k3, k4, k5⟩ := ih (g.step e) (fun x hx => h x (List.mem_cons_of_mem _ hx))
    show ((g.step e).run rest).matrix = _ ∧ _
    exact ⟨k1.trans h1, k2.trans h2, k3.trans h3, k4.trans h4, k5.trans h5⟩

/-- The OpenGL calls for one glyph draw one quad at the glyph's origin and
advance the pen. -/
theorem GLState.run_quad_events (g : GLState) (r : Font.Char) (texture : Nat) :
    (g.run (quad_events r texture)).matrix = g.matrix.translate r.advance_x 0 ∧
    (g.run (quad_events r texture)).matrix_stack = g.matrix_stack ∧
    (g.run (quad_events r texture)).enabled = g.enabled ∧
    (g.run (quad_events r texture)).attrib_stack = g.attrib_stack ∧
    (g.run (quad_events r texture)).quads = g.quads ++
      [{ texture := texture
         matrix := g.matrix.translate r.left (r.top - (r.height : ℚ))
         vertices :=
           [{ s := 0, t := 0, x := 0, y := (r.height : ℚ) },
            { s := 0, t := r.tex_coord_y, x := 0, y := 0 },
            { s := r.tex_coord_x, t := r.tex_coord_y, x := (r.width : ℚ), y := 0 },
            { s := r.tex_coord_x, t := 0, x := (r.width : ℚ), y := (r.height : ℚ) }] }] :=
  ⟨rfl, rfl, rfl, rfl, rfl⟩

theorem Mat.translate_translate (m : Mat) (a b c d : ℚ) :
    (m.translate a b).translate c d = m.translate (a + c) (b + d) := by
  unfold Mat.translate
  simp only [Mat.mk.injEq, true_and]
  constructor <;> ring

theorem Mat.translate_zero (m : Mat) : m.translate 0 0 = m := by
  unfold Mat.translate
  simp

theorem Font.Settled_congr (f1 f2 : Font) (face : FT_Face) (c : Nat)
    (ht : f2.textures_ c = f1.textures_ c) (hp : f2.char_properties_ c = f1.char_properties_ c)
    (h : f1.Settled face c) : f2.Settled face c := by
  unfold Font.Settled at h ⊢
  rw [ht, hp]
  exact h

theorem Font.record_congr (f1 f2 : Font) (c : Nat)
    (hp : f2.char_properties_ c = f1.char_properties_ c) : f2.record c = f1.record c := by
  unfold Font.record
  rw [hp]

theorem Font.texture_congr (f1 f2 : Font) (c : Nat)
    (ht : f2.textures_ c = f1.textures_ c) : f2.texture c = f1.texture c := by
  unfold Font.texture
  rw [ht]

theorem count_cache_events (evs : List Event) (h : ∀ e ∈ evs, e.is_cache_event = true)
    (e : Event) (he : e.is_cache_event = false) : evs.count e = 0 := by
  rw [List.count_eq_zero]
  intro hmem
  have := h e hmem
  rw [he] at this
  exact Bool.noConfusion this

theorem quad_events_counts (r : Font.Char) (texture : Nat) :
    (quad_events r texture).count Event.glPushMatrix = 1 ∧
    (quad_events r texture).count Event.glPopMatrix = 1 ∧
    (quad_events r texture).count (Event.glPushAttrib GLenum.GL_ENABLE_BIT) = 0 ∧
    (quad_events r texture).count Event.glPopAttrib = 0 ∧
    (quad_events r texture).count (Event.glBegin GLenum.GL_QUADS) = 1 ∧
    (quad_events r texture).count Event.glEnd = 1 ∧
    calls (quad_events r texture) = [] ∧ allocations (quad_events r texture) = [] := by
  refine ⟨?_, ?_, ?_, ?_, ?_, ?_, rfl, rfl⟩ <;> simp [quad_events, List.count_cons]

theorem allocations_append (a b : List Event) :
    allocations (a ++ b) = allocations a ++ allocations b := by
  unfold allocations
  exact List.filterMap_append _ _ _

/-- The loop of `ktDrawText` on a loaded font: it returns, settles every code
point of the text, and draws the quads of the layout. -/
theorem ktDrawText_loop_spec (face : FT_Face) (hfits : face.Fits) :
    ∀ (text : List Nat) (font : Font) (env : Env), font.face_ = some face →
      (∀ k, env.names k ≠ 0) →
      ∃ font' env' evs, ktDrawText_loop text font env = some (font', env') ∧
        font'.face_ = some face ∧ env'.names = env.names ∧ env'.log = env.log ++ evs ∧
        (∀ c, font.Settled face c →
          font'.textures_ c = font.textures_ c ∧
          font'.char_properties_ c = font.char_properties_ c) ∧
        (∀ c ∈ text, font'.Settled face c) ∧
        (∀ c ∈ text, font.texture c = 0 → face.Rasterizes c → font'.RecordFrom face c) ∧
        calls evs = text ∧
        ((∀ c ∈ text, font.Settled face c) →
          allocations evs = [] ∧ env'.allocated = env.allocated) ∧
        (evs.count Event.glPushMatrix = text.length ∧
         evs.count Event.glPopMatrix = text.length ∧
         evs.count (Event.glPushAttrib GLenum.GL_ENABLE_BIT) = 0 ∧
         evs.count Event.glPopAttrib = 0 ∧
         evs.count (Event.glBegin GLenum.GL_QUADS) = text.length ∧
         evs.count Event.glEnd = text.length) ∧
        ∀ (g : GLState) (frame : Mat) (pen : ℚ), g.matrix = frame.translate pen 0 →
          (g.run evs).matrix = frame.translate (pen + advance_sum font' text) 0 ∧
          (g.run evs).matrix_stack = g.matrix_stack ∧
          (g.run evs).enabled = g.enabled ∧
          (g.run evs).attrib_stack = g.attrib_stack ∧
          (g.run evs).quads = g.quads ++ layout_quads font' frame pen text := by
  intro text
  induction text with
  | nil =>
    intro font env hface _
    refine ⟨font, env, [], rfl, hface, rfl, by simp, fun _ _ => ⟨rfl, rfl⟩,
      fun c hc => absurd hc (List.not_mem_nil c),
      fun c hc => absurd hc (List.not_mem_nil c), rfl, fun _ => ⟨rfl, rfl⟩,
      ⟨rfl, rfl, rfl, rfl, rfl, rfl⟩, ?_⟩
    intro g frame pen hg
    refine ⟨?_, rfl, rfl, rfl, ?_⟩
    · show g.matrix = _
      rw [hg]
      simp [advance_sum]
    · show g.quads = _
      simp [layout_quads]
  | cons ch rest ih =>
    intro font env hface hnames
    obtain ⟨f1, e1, gevs, hstep, hface1, hn1, hlog1, hcache, hcalls1, halloc1, hset1, hstab1,
      hrec1⟩ := ktDrawText_glyph_spec font env ch face hface hfits hnames
    obtain ⟨f2, e2, evs2, hloop, hface2, hn2, hlog2, hstab2, hset2, hrec2, hcalls2, halloc2,
      hcnt2, hgl2⟩ := ih f1 e1 hface1 (by rw [hn1]; exact hnames)
    obtain ⟨hq1, hq2, hq3, hq4, hq5, hq6, hq7, hq8⟩ :=
      quad_events_counts (f1.record ch) (f1.texture ch)
    obtain ⟨hc1, hc2, hc3, hc4, hc5, hc6⟩ := hcnt2
    have hch := hstab2 ch hset1
    have hrec : f2.record ch = f1.record ch := Font.record_congr f1 f2 ch hch.2
    have htex : f2.texture ch = f1.texture ch := Font.texture_congr f1 f2 ch hch.1
    refine ⟨f2, e2, (gevs ++ quad_events (f1.record ch) (f1.texture ch)) ++ evs2, ?_, hface2,
      by rw [hn2, hn1], by rw [hlog2, hlog1, List.append_assoc], ?_, ?_, ?_, ?_, ?_,
      ⟨?_, ?_, ?_, ?_, ?_, ?_⟩, ?_⟩
    · simp only [ktDrawText_loop, hstep]
      exact hloop
    · intro c hc
      have h1 := hstab1 c (by
        by_cases hcc : c = ch
        · right; rw [← hcc]; exact hc
        · left; exact hcc)
      have h2 := hstab2 c (Font.Settled_congr font f1 face c h1.1 h1.2 hc)
      exact ⟨h2.1.trans h1.1, h2.2.trans h1.2⟩
    · intro c hc
      rcases List.mem_cons.mp hc with h | h
      · subst h
        exact Font.Settled_congr f1 f2 face c hch.1 hch.2 hset1
      · exact hset2 c h
    · intro c hc h0 hr
      by_cases hcc : c = ch
      · subst hcc
        obtain ⟨slot, g, tw, th, k1, k2, k3, k4, k5⟩ := hrec1 h0 hr
        exact ⟨slot, g, tw, th, k1, k2, k3, k4, by rw [hch.2]; exact k5⟩
      · have hin : c ∈ rest := by
          rcases List.mem_cons.mp hc with h | h
          · exact absurd h hcc
          · exact h
        have h1 := hstab1 c (Or.inl hcc)
        exact hrec2 c hin (by rw [Font.texture_congr font f1 c h1.1]; exact h0) hr
    · rw [calls_append, calls_append, hcalls1, hq7, hcalls2]
      rfl
    · intro hall
      obtain ⟨ha, hb⟩ := halloc1 (hall ch (List.mem_cons_self _ _))
      have hall2 : ∀ c ∈ rest, f1.Settled face c := by
        intro c hc
        have hsc := hall c (List.mem_cons_of_mem _ hc)
        have h1 := hstab1 c (by
          by_cases hcc : c = ch
          · right; rw [← hcc]; exact hsc
          · left; exact hcc)
        exact Font.Settled_congr font f1 face c h1.1 h1.2 hsc
      obtain ⟨hc, hd⟩ := halloc2 hall2
      refine ⟨?_, by rw [hd, hb]⟩
      rw [allocations_append, allocations_append, ha, hq8, hc]
      rfl
    · rw [List.count_append, List.count_append,
        count_cache_events gevs hcache Event.glPushMatrix rfl, hq1, hc1,
        List.length_cons]
      omega
    · rw [List.count_append, List.count_append,
        count_cache_events gevs hcache Event.glPopMatrix rfl, hq2, hc2,
        List.length_cons]
      omega
    · rw [List.count_append, List.count_append,
        count_cache_events gevs hcache (Event.glPushAttrib GLenum.GL_ENABLE_BIT) rfl, hq3, hc3]
    · rw [List.count_append, List.count_append,
        count_cache_events gevs hcache Event.glPopAttrib rfl, hq4, hc4]
    · rw [List.count_append, List.count_append,
        count_cache_events gevs hcache (Event.glBegin GLenum.GL_QUADS) rfl, hq5, hc5,
        List.length_cons]
      omega
    · rw [List.count_append, List.count_append,
        count_cache_events gevs hcache Event.glEnd rfl, hq6, hc6,
        List.length_cons]
      omega
    · intro g frame pen hg
      obtain ⟨a1, a2, a3, a4, a5⟩ := GLState.run_cache_events gevs g hcache
      obtain ⟨b1, b2, b3, b4, b5⟩ :=
        GLState.run_quad_events (g.run gevs) (f1.record ch) (f1.texture ch)
      have hpen : ((g.run gevs).run (quad_events (f1.record ch) (f1.texture ch))).matrix =
          frame.translate (pen + (f1.record ch).advance_x) 0 := by
        rw [b1, a1, hg, Mat.translate_translate, add_zero]
      obtain ⟨d1, d2, d3, d4, d5⟩ :=
        hgl2 ((g.run gevs).run (quad_events (f1.record ch) (f1.texture ch))) frame
          (pen + (f1.record ch).advance_x) hpen
      rw [GLState.run_append, GLState.run_append]
      refine ⟨?_, by rw [d2, b2, a2], by rw [d3, b3, a3], by rw [d4, b4, a4], ?_⟩
      · rw [d1]
        congr 1
        simp only [advance_sum, List.map_cons, List.sum_cons, hrec]
        ring
      · rw [d5, b5, a5, a1, hg, Mat.translate_translate, zero_add, List.append_assoc]
        simp only [layout_quads, layout_quad, hrec, htex, List.singleton_append]

/-- The calls `ktDrawText` makes before its loop, and what they do to the
OpenGL state. -/
theorem ktDrawText_begin_spec (env : Env) (x y : ℚ) :
    ∃ bevs, (ktDrawText_begin env x y).log = env.log ++ bevs ∧
      (ktDrawText_begin env x y).names = env.names ∧
      calls bevs = [] ∧
      bevs.count Event.glPushMatrix = 1 ∧ bevs.count Event.glPopMatrix = 0 ∧
      bevs.count (Event.glPushAttrib GLenum.GL_ENABLE_BIT) = 1 ∧
      bevs.count Event.glPopAttrib = 0 ∧
      bevs.count (Event.glBegin GLenum.GL_QUADS) = 0 ∧ bevs.count Event.glEnd = 0 ∧
      ∀ g : GLState,
        (g.run bevs).matrix = (g.matrix.scale 1 (-1)).translate x (-y) ∧
        (g.run bevs).matrix_stack = g.matrix :: g.matrix_stack ∧
        (g.run bevs).attrib_stack = g.enabled :: g.attrib_stack ∧
        (g.run bevs).quads = g.quads := by
  refine ⟨[Event.glPushAttrib GLenum.GL_ENABLE_BIT, Event.glEnable GLenum.GL_TEXTURE_2D,
    Event.glEnable GLenum.GL_BLEND,
    Event.glBlendFunc GLenum.GL_SRC_ALPHA GLenum.GL_ONE_MINUS_SRC_ALPHA,
    Event.glPushMatrix, Event.glScalef 1 (-1) 1, Event.glTranslatef x (-y) 0],
    ?_, rfl, rfl, ?_, ?_, ?_, ?_, ?_, ?_, fun g => ⟨rfl, rfl, rfl, rfl⟩⟩
  · simp [ktDrawText_begin, Env.emit]
  all_goals simp [List.count_cons]

/-- The two calls `ktDrawText` makes after its loop restore the matrix and
the enable state. -/
theorem ktDrawText_end_spec (g : GLState) (m : Mat) (ms : List Mat) (en : List GLenum)
    (as : List (List GLenum)) (hm : g.matrix_stack = m :: ms) (ha : g.attrib_stack = en :: as) :
    (g.run [Event.glPopMatrix, Event.glPopAttrib]).matrix = m ∧
    (g.run [Event.glPopMatrix, Event.glPopAttrib]).matrix_stack = ms ∧
    (g.run [Event.glPopMatrix, Event.glPopAttrib]).enabled = en ∧
    (g.run [Event.glPopMatrix, Event.glPopAttrib]).attrib_stack = as ∧
    (g.run [Event.glPopMatrix, Event.glPopAttrib]).quads = g.quads := by
  simp [GLState.run, GLState.step, hm, ha]

/-- The call `ktDrawText` on a bound, loaded font whose bitmaps fit, with a backend
that hands out non-zero texture names. -/
theorem ktDrawText_spec (s : State) (env : Env) (x y : ℚ) (text : List Nat) (font : Font)
    (face : FT_Face) (hbound : s.fonts_ s.current_font_ = some (some font))
    (hface : font.face_ = some face) (hfits : face.Fits) (hnames : ∀ k, env.names k ≠ 0) :
    ∃ s' env' font' evs,
      ktDrawText s env x y text = some ((), s', env') ∧
      s'.current_font_ = s.current_font_ ∧
      s'.fonts_ s'.current_font_ = some (some font') ∧
      font'.face_ = some face ∧ env'.names = env.names ∧ env'.log = env.log ++ evs ∧
      (∀ c, font.Settled face c →
        font'.textures_ c = font.textures_ c ∧
        font'.char_properties_ c = font.char_properties_ c) ∧
      (∀ c ∈ text, font'.Settled face c) ∧
      (∀ c ∈ text, font.texture c = 0 → face.Rasterizes c → font'.RecordFrom face c) ∧
      calls evs = text ∧
      ((∀ c ∈ text, font.Settled face c) →
        allocations evs = [] ∧ env'.allocated = env.allocated) ∧
      (∃ levs, evs = levs ++ [Event.glPopMatrix, Event.glPopAttrib] ∧
        ∀ g : GLState, (g.run levs).matrix =
          ((g.matrix.scale 1 (-1)).translate x (-y)).translate (advance_sum font' text) 0) ∧
      (evs.count Event.glPushMatrix = text.length + 1 ∧
       evs.count Event.glPopMatrix = text.length + 1 ∧
       evs.count (Event.glPushAttrib GLenum.GL_ENABLE_BIT) = 1 ∧
       evs.count Event.glPopAttrib = 1 ∧
       evs.count (Event.glBegin GLenum.GL_QUADS) = text.length ∧
       evs.count Event.glEnd = text.length) ∧
      ∀ g : GLState,
        (g.run evs).matrix = g.matrix ∧
        (g.run evs).matrix_stack = g.matrix_stack ∧
        (g.run evs).enabled = g.enabled ∧
        (g.run evs).attrib_stack = g.attrib_stack ∧
        (g.run evs).quads = g.quads ++
          layout_quads font' ((g.matrix.scale 1 (-1)).translate x (-y)) 0 text := by
  obtain ⟨bevs, hblog, hbn, hbcalls, hb1, hb2, hb3, hb4, hb5, hb6, hbgl⟩ :=
    ktDrawText_begin_spec env x y
  obtain ⟨f2, e2, evs2, hloop, hface2, hn2, hlog2, hstab, hset, hrec, hcalls, halloc,
    ⟨hc1, hc2, hc3, hc4, hc5, hc6⟩, hgl⟩ :=
    ktDrawText_loop_spec face hfits text font (ktDrawText_begin env x y) hface
      (by rw [hbn]; exact hnames)
  have hidx : map_index none s.fonts_ s.current_font_ = (some font, s.fonts_) :=
    map_index_of_some _ _ _ _ hbound
  have hres : ∃ s', ktDrawText s env x y text =
      some ((), s', (e2.emit Event.glPopMatrix).emit Event.glPopAttrib) ∧
      s'.current_font_ = s.current_font_ ∧ s'.fonts_ s'.current_font_ = some (some f2) := by
    cases text with
    | nil =>
      simp only [ktDrawText_loop, Option.some.injEq, Prod.mk.injEq] at hloop
      obtain ⟨hf, he⟩ := hloop
      subst hf
      subst he
      refine ⟨{ s with fonts_ := (map_index none s.fonts_ s.current_font_).2 }, rfl, rfl, ?_⟩
      show (map_index none s.fonts_ s.current_font_).2 s.current_font_ = _
      rw [hidx]
      exact hbound
    | cons ch rest =>
      refine ⟨{ s with fonts_ := map_assign s.fonts_ s.current_font_ (some f2) }, ?_, rfl, ?_⟩
      · simp only [ktDrawText, hidx, hloop]
      · simp [map_assign]
  obtain ⟨s', hs', hcur, hslot⟩ := hres
  refine ⟨s', _, f2, bevs ++ (evs2 ++ [Event.glPopMatrix, Event.glPopAttrib]), hs', hcur, hslot,
    hface2, ?_, ?_, hstab, hset, hrec, ?_, ?_, ⟨bevs ++ evs2, ?_, ?_⟩,
    ⟨?_, ?_, ?_, ?_, ?_, ?_⟩, ?_⟩
  · show e2.names = _
    rw [hn2, hbn]
  · show (e2.log ++ [Event.glPopMatrix]) ++ [Event.glPopAttrib] = _
    rw [hlog2, hblog]
    simp only [List.append_assoc, List.cons_append, List.nil_append]
  · rw [calls_append, calls_append, hbcalls, hcalls]
    simp [calls]
  · intro hall
    obtain ⟨ha, hb⟩ := halloc hall
    refine ⟨?_, hb⟩
    have hbevs : allocations bevs = [] := by
      have h := hblog
      simp only [ktDrawText_begin, Env.emit, List.append_assoc, List.cons_append,
        List.nil_append] at h
      rw [← List.append_cancel_left h]
      rfl
    rw [allocations_append, allocations_append, ha, hbevs]
    rfl
  · rw [List.append_assoc]
  · intro g
    obtain ⟨g1, _, _, _⟩ := hbgl g
    obtain ⟨l1, _⟩ := hgl (g.run bevs) ((g.matrix.scale 1 (-1)).translate x (-y)) 0
      (by rw [g1, Mat.translate_zero])
    rw [GLState.run_append, l1, zero_add]
  · rw [List.count_append, List.count_append, hb1, hc1]
    simp [List.count_cons]
    omega
  · rw [List.count_append, List.count_append, hb2, hc2]
    simp [List.count_cons]
  · rw [List.count_append, List.count_append, hb3, hc3]
    simp [List.count_cons]
  · rw [List.count_append, List.count_append, hb4, hc4]
    simp [List.count_cons]
  · rw [List.count_append, List.count_append, hb5, hc5]
    simp [List.count_cons]
  · rw [List.count_append, List.count_append, hb6, hc6]
    simp [List.count_cons]
  · intro g
    obtain ⟨g1, g2, g3, g4⟩ := hbgl g
    obtain ⟨l1, l2, l3, l4, l5⟩ := hgl (g.run bevs) ((g.matrix.scale 1 (-1)).translate x (-y)) 0
      (by rw [g1, Mat.translate_zero])
    obtain ⟨e1, e2, e3, e4, e5⟩ :=
      ktDrawText_end_spec ((g.run bevs).run evs2) g.matrix g.matrix_stack g.enabled
        g.attrib_stack (by rw [l2, g2]) (by rw [l4, g3])
    rw [GLState.run_append, GLState.run_append]
    exact ⟨e1, e2, e3, e4, by rw [e5, l5, g4]⟩

/-! ## `ktGetStringWidth` -/

theorem advance_sum_congr (f1 f2 : Font) (h : ∀ c, f2.record c = f1.record c)
    (text : List Nat) : advance_sum f2 text = advance_sum f1 text := by
  unfold advance_sum
  congr 1
  apply List.map_congr_left
  intro c _
  rw [h c]

theorem Font.props_snd_record (self : Font) (ch c : Nat) :
    (self.props ch).2.record c = self.record c := by
  unfold Font.props Font.record
  by_cases h : c = ch
  · subst h
    simp only [map_index_snd_self, Option.getD_some, map_index_fst]
  · simp only [map_index_snd_ne _ _ _ _ h]

/-- The loop of `ktGetStringWidth` adds up the advances of the records the
font holds; it never calls `generate_glyph_texture`. -/
theorem ktGetStringWidth_loop_spec :
    ∀ (text : List Nat) (len : ℚ) (font : Font),
      (ktGetStringWidth_loop text len font).1 = len + advance_sum font text ∧
      (ktGetStringWidth_loop text len font).2.textures_ = font.textures_ ∧
      (ktGetStringWidth_loop text len font).2.face_ = font.face_ ∧
      ∀ c, (ktGetStringWidth_loop text len font).2.record c = font.record c := by
  intro text
  induction text with
  | nil =>
    intro len font
    exact ⟨by simp [ktGetStringWidth_loop, advance_sum], rfl, rfl, fun _ => rfl⟩
  | cons ch rest ih =>
    intro len font
    obtain ⟨h1, h2, h3, h4⟩ :=
      ih (len + (font.get_char_advance_x ch).1) (font.get_char_advance_x ch).2
    have hrec : ∀ c, (font.get_char_advance_x ch).2.record c = font.record c :=
      fun c => Font.props_snd_record font ch c
    have hadv : (font.get_char_advance_x ch).1 = (font.record ch).advance_x := by
      unfold Font.get_char_advance_x
      rw [Font.props_fst]
    refine ⟨?_, ?_, ?_, ?_⟩
    · show (ktGetStringWidth_loop rest _ _).1 = _
      rw [h1, advance_sum_congr font _ hrec, hadv]
      simp only [advance_sum, List.map_cons, List.sum_cons]
      ring
    · show (ktGetStringWidth_loop rest _ _).2.textures_ = _
      rw [h2]
      rfl
    · show (ktGetStringWidth_loop rest _ _).2.face_ = _
      rw [h3]
      rfl
    · intro c
      show (ktGetStringWidth_loop rest _ _).2.record c = _
      rw [h4, hrec]

/-- The call `ktGetStringWidth` on a bound font returns the sum of the advances of
the records the font holds at the call (zero for a code point without one). -/
theorem ktGetStringWidth_spec (s : State) (env : Env) (text : List Nat) (font : Font)
    (hbound : s.fonts_ s.current_font_ = some (some font)) :
    ∃ s', ktGetStringWidth s env text = some (advance_sum font text, s', env) ∧
      s'.current_font_ = s.current_font_ := by
  cases text with
  | nil => exact ⟨s, by simp [ktGetStringWidth, advance_sum], rfl⟩
  | cons ch rest =>
    have hidx : map_index none s.fonts_ s.current_font_ = (some font, s.fonts_) :=
      map_index_of_some _ _ _ _ hbound
    obtain ⟨h1, _⟩ := ktGetStringWidth_loop_spec (ch :: rest) 0 font
    refine ⟨{ s with
      fonts_ := (map_assign s.fonts_ s.current_font_
        (some (ktGetStringWidth_loop (ch :: rest) 0 font).2)) }, ?_, rfl⟩
    simp only [ktGetStringWidth, hidx, h1, zero_add]

/-! ## The sample font after `ktLoadFont` -/

theorem loaded_spec :
    ktLoadFont sample_state sample_env sample_ttf 24 = some ((), loaded_state, loaded_env) ∧
    loaded_state.fonts_ loaded_state.current_font_ = some (some loaded_font) ∧
    loaded_font.face_ = some sample_face ∧
    loaded_env.names = sample_env.names ∧
    (∀ c, c < 32 ∨ 128 ≤ c →
      loaded_font.textures_ c = none ∧ loaded_font.char_properties_ c = none) ∧
    (∀ c, 32 ≤ c → c ≤ 127 → sample_face.Rasterizes c →
      ∃ t r, loaded_font.textures_ c = some t ∧ t ≠ 0 ∧
        loaded_font.char_properties_ c = some r) := by
  obtain ⟨f, e, evs, hres, hface, hn, _, _, _, _, hframe, hcached⟩ :=
    font_load_ok (Font.new sample_ttf (toInt32 24)) sample_env sample_face rfl
      sample_face_fits (fun k => Nat.succ_ne_zero k) (fun _ _ => rfl)
  have h2 : ktLoadFont sample_state sample_env sample_ttf 24 =
      some ((), { sample_state with
        fonts_ := map_assign sample_state.fonts_ sample_state.current_font_ (some f) },
        e) := by
    unfold ktLoadFont
    rw [hres]
  have hs : loaded_state = { sample_state with
      fonts_ := map_assign sample_state.fonts_ sample_state.current_font_ (some f) } := by
    unfold loaded_state loaded_result
    rw [h2]
  have he : loaded_env = e := by
    unfold loaded_env loaded_result
    rw [h2]
  have hf : loaded_font = f := by
    unfold loaded_font
    rw [hs]
    simp [map_assign]
  rw [hs, he, hf]
  refine ⟨h2, by simp [map_assign], hface, hn, hframe, hcached⟩

/-! ## The claims about the public functions -/

/-- Claim C1 fails on the code. After `ktLoadFont("sample.ttf", 24)` the code
point 233 lies outside the warm range and rasterizes with an advance of 10
pixels.  From this state `ktGetStringWidth` of the text `[233]` returns `0`,
since it reads the record without calling `generate_glyph_texture`, while
`ktDrawText` of the same text from the same state advances the pen by `10`. -/
theorem ktGetStringWidth_differs_from_drawn_advance :
    sample_face.Rasterizes 233 ∧
    (∃ s1, ktGetStringWidth loaded_state loaded_env [233] = some (0, s1, loaded_env)) ∧
    ∃ s2 env2 font2 levs,
      ktDrawText loaded_state loaded_env 0 0 [233] = some ((), s2, env2) ∧
      s2.fonts_ s2.current_font_ = some (some font2) ∧
      env2.log = loaded_env.log ++ (levs ++ [Event.glPopMatrix, Event.glPopAttrib]) ∧
      advance_sum font2 [233] = 10 ∧
      ∀ g : GLState, (g.run levs).matrix =
        ((g.matrix.scale 1 (-1)).translate 0 (-0)).translate 10 0 := by
  obtain ⟨_, hbound, hface, hn, hfresh, _⟩ := loaded_spec
  obtain ⟨ht, hp⟩ := hfresh 233 (Or.inr (by norm_num))
  have hrast : sample_face.Rasterizes 233 := ⟨rfl, rfl⟩
  refine ⟨hrast, ?_, ?_⟩
  · obtain ⟨s1, h1, _⟩ := ktGetStringWidth_spec loaded_state loaded_env [233] loaded_font hbound
    refine ⟨s1, ?_⟩
    rw [h1]
    have h0 : advance_sum loaded_font [233] = 0 := by
      simp [advance_sum, Font.record, hp, Font.Char.zero]
    rw [h0]
  · obtain ⟨s2, env2, font2, evs, hres, _, hslot, _, _, hlog, _, _, hrec, _, _,
      ⟨levs, hlevs, hpen⟩, _, _⟩ :=
      ktDrawText_spec loaded_state loaded_env 0 0 [233] loaded_font sample_face hbound hface
        sample_face_fits (fun k => by rw [hn]; exact Nat.succ_ne_zero k)
    obtain ⟨slot, g, tw, th, k1, _, _, _, k5⟩ :=
      hrec 233 (List.mem_singleton.mpr rfl) (by simp [Font.texture, ht]) hrast
    have hslot233 : sample_face.FT_Load_Glyph 233 =
        some { advance_x := 640, horiBearingY := 128, height := 192 } := rfl
    rw [hslot233] at k1
    have hslot_eq := Option.some.inj k1
    have hadv : advance_sum font2 [233] = 10 := by
      simp only [advance_sum, Font.record, k5, List.map_cons, List.map_nil, List.sum_cons,
        List.sum_nil, Option.getD_some, glyph_record, add_zero, ← hslot_eq]
      have h64 : ((640 : Int) >>> 6) = 10 := by decide
      rw [h64]
      norm_num
    refine ⟨s2, env2, font2, levs, hres, hslot, by rw [hlog, hlevs], hadv, fun g => ?_⟩
    rw [hpen g, hadv]

/-- Claim C2 fails on the code. After `ktLoadFont("sample.ttf", 24)` the code
point 233 is not cached and would rasterize.  `ktCacheString` of the text
`[233]` enters `generate_glyph_texture` once, with the index `0` instead of
the character `233`, and afterwards the code point 233 still has neither a
texture handle nor a record. -/
theorem ktCacheString_passes_the_index :
    sample_face.Rasterizes 233 ∧
    ∃ s2 env2 font2 evs,
      ktCacheString loaded_state loaded_env [233] = some ((), s2, env2) ∧
      s2.fonts_ s2.current_font_ = some (some font2) ∧
      env2.log = loaded_env.log ++ evs ∧ calls evs = [0] ∧
      font2.textures_ 233 = none ∧ font2.char_properties_ 233 = none := by
  obtain ⟨_, hbound, hface, _, hfresh, _⟩ := loaded_spec
  obtain ⟨ht, hp⟩ := hfresh 233 (Or.inr (by norm_num))
  obtain ⟨b, f1, e1, evs, hres, _, hft, hfp, _, _, _, hlog, hcalls, _⟩ :=
    generate_glyph_texture_summary loaded_font loaded_env 0 sample_face hface sample_face_fits
  have hidx : map_index none loaded_state.fonts_ loaded_state.current_font_ =
      (some loaded_font, loaded_state.fonts_) := map_index_of_some _ _ _ _ hbound
  refine ⟨⟨rfl, rfl⟩,
    { loaded_state with
      fonts_ := map_assign loaded_state.fonts_ loaded_state.current_font_ (some f1) },
    e1, f1, evs, ?_, by simp [map_assign], hlog, hcalls, ?_, ?_⟩
  · have hrange : List.range [233].length = [0] := rfl
    simp only [ktCacheString, hidx, hrange, ktCacheString_loop, hres]
  · rw [hft 233 (by norm_num)]
    exact ht
  · rw [hfp 233 (by norm_num)]
    exact hp

end Kaztext
